import Mathlib

/-!
# Replicated write / delete coordination of the volume server

A shallow embedding of `weed/topology/store_replicate.go` and of the delete handler of
`weed/server/volume_server_handlers_write.go`.

* A Go `error` is an `Option String`: `none` is `nil`, `some msg` an error whose text is `msg`.
* Every call to a collaborator (directory lookup, local store, peer transport) is appended to a
  trace of `Event`s, so that "no call was made" is a statement about the trace.
* The goroutines of `distributedOperation` are modelled by the list of results they send, the
  order in which the receive loop sees them (`Env.arrival`) and the order in which the `range`
  over the result map visits its entries (`Env.range`); both orders are arbitrary permutations.
* The peer calls of one fan-out enter the trace in the order in which the scheduler lets the
  goroutines run (`Env.priority`), not in launch order.
* `s.GetVolume(volumeId)` may be `nil`; dereferencing it panics, which is the `none` result of a
  `Run`.
* Logging (`glog`) and metrics (`stats`) are not modelled.
-/

namespace Seaweed

/-- A Go `error`: `none` is nil, `some msg` is an error whose `Error()` text is `msg`. -/
abbrev GoError := Option String

/-- Volume identifier, `needle.VolumeId` (a `uint32`). -/
abbrev VolumeId := Nat

/-- Decimal rendering of a volume id, `volumeId.String()`. -/
def VolumeId.String (v : VolumeId) : String := toString v

/-- Modelled from the spec: `needle.Needle` is declared outside the two source files. The fields
are the ones the spec's data model lists; `Ttl` holds the text `n.Ttl.String()`, `Pairs` the object
`json.Unmarshal(n.Pairs, ..)` decodes, and the three flags are `n.HasPairs()`, `n.IsGzipped()` and
`n.IsChunkedManifest()`. -/
structure Needle where
  Id : Nat
  Cookie : Nat
  Size : Nat
  Data : List Nat
  Name : String
  Mime : String
  Pairs : List (String × String)
  HasPairs : Bool
  LastModified : Nat
  Ttl : String
  IsGzipped : Bool
  IsChunkedManifest : Bool
deriving DecidableEq, Repr

/-- Modelled from the spec: `operation.Location`, a peer's network address; `Url` is the host
identity the coordinator uses. -/
structure Location where
  Url : String
  PublicUrl : String
deriving DecidableEq, Repr

/-- The query values `url.Values` of an outbound request, one value per key. -/
abbrev Values := List (String × String)

/-- The assignment `q.Set(key, value)`. -/
def Values.Set : Values → String → String → Values
  | [], key, value => [(key, value)]
  | (k, v) :: rest, key, value =>
    if k = key then (key, value) :: rest else (k, v) :: Values.Set rest key value

/-- The lookup `q.Get(key)`; `none` when the key is absent. -/
def Values.Get : Values → String → Option String
  | [], _ => none
  | (k, v) :: rest, key => if k = key then some v else Values.Get rest key

/-- The fields of a `url.URL`; `RawQuery` holds the pairs that `q.Encode()` renders. -/
structure URL where
  Scheme : String
  Host : String
  Path : String
  RawQuery : Values
deriving DecidableEq, Repr

/-- The arguments of one `operation.Upload` call. -/
structure UploadCall where
  u : URL
  filename : String
  data : List Nat
  isGzipped : Bool
  mtype : String
  pairMap : List (String × String)
  jwt : String
deriving DecidableEq, Repr

/-- Modelled from the spec: `operation.ChunkManifest`, of which the handler reads `Size`. -/
structure ChunkManifest where
  Name : String
  Size : Int
deriving DecidableEq, Repr

/-- One call to a collaborator, in the order the calls are made. -/
inductive Event where
  | Lookup (server : String) (vid : String)
  | WriteVolumeNeedle (vid : VolumeId) (n : Needle)
  | DeleteVolumeNeedle (vid : VolumeId) (n : Needle)
  | Upload (call : UploadCall)
  | Delete (url : String) (jwt : String)
  | DeleteEcShardNeedle (vid : VolumeId) (n : Needle) (cookie : Nat)
  | ReadVolumeNeedle (vid : VolumeId) (n : Needle) (err : GoError)
  | LoadChunkManifest (data : List Nat) (isGzipped : Bool) (err : GoError)
  | DeleteChunks (cm : ChunkManifest) (err : GoError)
  | OldReplicatedDelete (vid : VolumeId) (n : Needle)
deriving DecidableEq

/-- The part of a request the coordinator reads: form values, path and the caller's token
(`security.GetJwt` / `security.OldGetJwt`). -/
structure Request where
  FormValue : String → String
  Path : String
  Jwt : String

/-- A mounted volume; `CopyCount` is `ReplicaPlacement.GetCopyCount()`, a Go `int`. -/
structure Volume where
  CopyCount : Int

/-- The local volume store `storage.Store`, declared outside the source files: its address and
the outcome of each of its operations. -/
structure Store where
  Ip : String
  Port : Int
  GetVolume : VolumeId → Option Volume
  WriteVolumeNeedle : VolumeId → Needle → Nat × Bool × GoError
  DeleteVolumeNeedle : VolumeId → Needle → Nat × GoError
  FindEcVolume : VolumeId → Option Nat
  DeleteEcShardNeedle : Nat → Needle → Nat → Int × GoError
  ReadVolumeNeedle : VolumeId → Needle → Needle × GoError

/-- One goroutine's report, `RemoteResult`. -/
structure RemoteResult where
  Host : String
  Error : GoError
deriving DecidableEq, Repr

/-- The host-keyed result map, `DistributedOperationResult`: an association list without
repeated keys. -/
abbrev DistributedOperationResult := List (String × GoError)

/-- The network and the scheduler: directory lookup, the two peer calls (the first argument is
the index of the calling goroutine, so that two calls may differ in outcome), the order in which
results arrive on the channel, the order in which a `range` visits a map, and the rank at which
the scheduler lets each goroutine make its call (the goroutine of lower rank calls first). -/
structure Env where
  Lookup : String → String → Except String (List Location)
  Upload : Nat → UploadCall → GoError
  Delete : Nat → String → String → GoError
  arrival : List RemoteResult → List RemoteResult
  range : DistributedOperationResult → DistributedOperationResult
  priority : Nat → Nat

/-- A scheduler delivers every result exactly once and a `range` visits every entry exactly
once. -/
def Env.fair (env : Env) : Prop :=
  (∀ rs, (env.arrival rs).Perm rs) ∧ (∀ m, (env.range m).Perm m)

/-- The trace of a run and its returned value; `none` when the run panicked. -/
structure Run (α : Type) where
  trace : List Event
  result : Option α

/-- Insertion of a ranked call into a list of calls ordered by rank. -/
def insertByRank (x : Nat × Event) : List (Nat × Event) → List (Nat × Event)
  | [] => [x]
  | y :: rest => if x.1 ≤ y.1 then x :: y :: rest else y :: insertByRank x rest

/-- The calls of the goroutines launched from index `i` on, each with its rank, ordered by
rank. -/
def rankedFrom (priority : Nat → Nat) : Nat → List Event → List (Nat × Event)
  | _, [] => []
  | i, call :: rest => insertByRank (priority i, call) (rankedFrom priority (i + 1) rest)

/-- The order in which the calls of the goroutines of one fan-out are made: `calls` lists them
in launch order, the scheduler runs them by rank. -/
def dispatch (priority : Nat → Nat) (calls : List Event) : List Event :=
  (rankedFrom priority 0 calls).map Prod.snd

/-- Go's `strings.Join`. -/
def stringsJoin : List String → String → String
  | [], _ => ""
  | [a], _ => a
  | a :: b :: rest, sep => a ++ sep ++ stringsJoin (b :: rest) sep

/-- The map assignment `ret[k] = v`. -/
def DistributedOperationResult.set :
    DistributedOperationResult → String → GoError → DistributedOperationResult
  | [], k, v => [(k, v)]
  | (k0, v0) :: rest, k, v =>
    if k0 = k then (k, v) :: rest else (k0, v0) :: DistributedOperationResult.set rest k v

/-- The line `fmt.Sprintf("[%s]: %v", k, v)`. -/
def errorLine (k : String) (v : String) : String := "[" ++ k ++ "]: " ++ v

/-- The method `DistributedOperationResult.Error`; `range` is the order of the map iteration. -/
def DistributedOperationResult.Error
    (range : DistributedOperationResult → DistributedOperationResult)
    (dr : DistributedOperationResult) : GoError :=
  let errs : List String := (range dr).foldl
    (fun errs kv =>
      match kv.2 with
      | some v => errs ++ [errorLine kv.1 v]
      | none => errs) []
  if errs.length = 0 then none else some (stringsJoin errs "\n")

/-- The results the goroutines send: goroutine `i` runs `op` on the `i`-th location. -/
def launch (op : Nat → Location → GoError) : Nat → List Location → List RemoteResult
  | _, [] => []
  | i, location :: rest => ⟨location.Url, op i location⟩ :: launch op (i + 1) rest

/-- The function `distributedOperation`: one goroutine per location, `length` receives, and the
combined error of the collected map. `op i location` is what the call `op(location)` made by the
`i`-th goroutine returns: a Go closure may answer differently on each call. -/
def distributedOperation (env : Env) (locations : List Location)
    (op : Nat → Location → GoError) : GoError :=
  let received := env.arrival (launch op 0 locations)
  let ret : DistributedOperationResult :=
    received.foldl (fun ret result => ret.set result.Host result.Error) []
  DistributedOperationResult.Error env.range ret

/-- The function `getWritableRemoteReplications`. -/
def getWritableRemoteReplications (env : Env) (s : Store) (volumeId : VolumeId)
    (masterNode : String) : Run (List Location × GoError) :=
  match s.GetVolume volumeId with
  | none => ⟨[], none⟩
  | some volume =>
    let copyCount := volume.CopyCount
    if copyCount > 1 then
      match env.Lookup masterNode (VolumeId.String volumeId) with
      | .ok locations =>
        if (locations.length : Int) < copyCount then
          ⟨[.Lookup masterNode (VolumeId.String volumeId)],
            some ([], some ("replicating opetations [" ++ toString locations.length
              ++ "] is less than volume's replication copy count [" ++ toString copyCount
              ++ "]"))⟩
        else
          let selfUrl := s.Ip ++ ":" ++ toString s.Port
          ⟨[.Lookup masterNode (VolumeId.String volumeId)],
            some (locations.foldl
              (fun remoteLocations location =>
                if location.Url != selfUrl then remoteLocations ++ [location]
                else remoteLocations) [], none)⟩
      | .error lookupErr =>
        ⟨[.Lookup masterNode (VolumeId.String volumeId)],
          some ([], some ("failed to lookup for " ++ toString volumeId ++ ": " ++ lookupErr))⟩
    else ⟨[], some ([], none)⟩

/-- The constant `needle.PairNamePrefix`. -/
def PairNamePrefix : String := "Seaweed-"

/-- The arguments of the `operation.Upload` call that the write closure makes for one peer. -/
def replicateUpload (r : Request) (jwt : String) (n : Needle) (location : Location) :
    UploadCall :=
  let q : Values := [("type", "replicate"), ("ttl", n.Ttl)]
  let q := if n.LastModified > 0 then q.Set "ts" (toString n.LastModified) else q
  let q := if n.IsChunkedManifest then q.Set "cm" "true" else q
  let u : URL := { Scheme := "http", Host := location.Url, Path := r.Path, RawQuery := q }
  let pairMap : List (String × String) :=
    if n.HasPairs then n.Pairs.map (fun kv => (PairNamePrefix ++ kv.1, kv.2)) else []
  { u := u, filename := n.Name, data := n.Data, isGzipped := n.IsGzipped, mtype := n.Mime,
    pairMap := pairMap, jwt := jwt }

/-- The target of the `util.Delete` call that the delete closure makes for one peer. -/
def replicateDeleteUrl (r : Request) (location : Location) : String :=
  "http://" ++ location.Url ++ r.Path ++ "?type=replicate"

/-- Replica resolution as the four coordinators do it: skipped for a forwarded hop. -/
def resolve (env : Env) (s : Store) (volumeId : VolumeId) (masterNode : String) (r : Request) :
    Run (List Location × GoError) :=
  if r.FormValue "type" != "replicate" then
    getWritableRemoteReplications env s volumeId masterNode
  else ⟨[], some ([], none)⟩

/-- The function `ReplicatedWrite`. -/
def ReplicatedWrite (env : Env) (masterNode : String) (s : Store) (volumeId : VolumeId)
    (n : Needle) (ctx : Request) : Run (Nat × Bool × GoError) :=
  let jwt := ctx.Jwt
  let resolved := resolve env s volumeId masterNode ctx
  match resolved.result with
  | none => ⟨resolved.trace, none⟩
  | some (_, some err) => ⟨resolved.trace, some (0, false, some err)⟩
  | some (remoteLocations, none) =>
    match s.WriteVolumeNeedle volumeId n with
    | (size, isUnchanged, some err) =>
      ⟨resolved.trace ++ [.WriteVolumeNeedle volumeId n],
        some (size, isUnchanged, some ("failed to write to local disk: " ++ err))⟩
    | (size, isUnchanged, none) =>
      if remoteLocations.length > 0 then
        let calls := dispatch env.priority (remoteLocations.map (fun location =>
          Event.Upload (replicateUpload ctx jwt n location)))
        match distributedOperation env remoteLocations
            (fun i location => env.Upload i (replicateUpload ctx jwt n location)) with
        | some err =>
          ⟨resolved.trace ++ [.WriteVolumeNeedle volumeId n] ++ calls,
            some (0, isUnchanged, some ("failed to write to replicas for volume "
              ++ toString volumeId ++ ": " ++ err))⟩
        | none =>
          ⟨resolved.trace ++ [.WriteVolumeNeedle volumeId n] ++ calls,
            some (size, isUnchanged, none)⟩
      else
        ⟨resolved.trace ++ [.WriteVolumeNeedle volumeId n], some (size, isUnchanged, none)⟩

/-- The function `OldReplicatedWrite`: the same steps over a `net/http` request. -/
def OldReplicatedWrite (env : Env) (masterNode : String) (s : Store) (volumeId : VolumeId)
    (n : Needle) (r : Request) : Run (Nat × Bool × GoError) :=
  let jwt := r.Jwt
  let resolved := resolve env s volumeId masterNode r
  match resolved.result with
  | none => ⟨resolved.trace, none⟩
  | some (_, some err) => ⟨resolved.trace, some (0, false, some err)⟩
  | some (remoteLocations, none) =>
    match s.WriteVolumeNeedle volumeId n with
    | (size, isUnchanged, some err) =>
      ⟨resolved.trace ++ [.WriteVolumeNeedle volumeId n],
        some (size, isUnchanged, some ("failed to write to local disk: " ++ err))⟩
    | (size, isUnchanged, none) =>
      if remoteLocations.length > 0 then
        let calls := dispatch env.priority (remoteLocations.map (fun location =>
          Event.Upload (replicateUpload r jwt n location)))
        match distributedOperation env remoteLocations
            (fun i location => env.Upload i (replicateUpload r jwt n location)) with
        | some err =>
          ⟨resolved.trace ++ [.WriteVolumeNeedle volumeId n] ++ calls,
            some (0, isUnchanged, some ("failed to write to replicas for volume "
              ++ toString volumeId ++ ": " ++ err))⟩
        | none =>
          ⟨resolved.trace ++ [.WriteVolumeNeedle volumeId n] ++ calls,
            some (size, isUnchanged, none)⟩
      else
        ⟨resolved.trace ++ [.WriteVolumeNeedle volumeId n], some (size, isUnchanged, none)⟩

/-- The function `ReplicatedDelete`. -/
def ReplicatedDelete (env : Env) (masterNode : String) (store : Store) (volumeId : VolumeId)
    (n : Needle) (ctx : Request) : Run (Nat × GoError) :=
  let jwt := ctx.Jwt
  let resolved := resolve env store volumeId masterNode ctx
  match resolved.result with
  | none => ⟨resolved.trace, none⟩
  | some (_, some err) => ⟨resolved.trace, some (0, some err)⟩
  | some (remoteLocations, none) =>
    match store.DeleteVolumeNeedle volumeId n with
    | (size, some err) =>
      ⟨resolved.trace ++ [.DeleteVolumeNeedle volumeId n], some (size, some err)⟩
    | (size, none) =>
      if remoteLocations.length > 0 then
        let calls := dispatch env.priority (remoteLocations.map (fun location =>
          Event.Delete (replicateDeleteUrl ctx location) jwt))
        match distributedOperation env remoteLocations
            (fun i location => env.Delete i (replicateDeleteUrl ctx location) jwt) with
        | some err =>
          ⟨resolved.trace ++ [.DeleteVolumeNeedle volumeId n] ++ calls, some (0, some err)⟩
        | none =>
          ⟨resolved.trace ++ [.DeleteVolumeNeedle volumeId n] ++ calls, some (size, none)⟩
      else
        ⟨resolved.trace ++ [.DeleteVolumeNeedle volumeId n], some (size, none)⟩

/-- The function `OldReplicatedDelete`: the same steps over a `net/http` request. -/
def OldReplicatedDelete (env : Env) (masterNode : String) (store : Store) (volumeId : VolumeId)
    (n : Needle) (r : Request) : Run (Nat × GoError) :=
  let jwt := r.Jwt
  let resolved := resolve env store volumeId masterNode r
  match resolved.result with
  | none => ⟨resolved.trace, none⟩
  | some (_, some err) => ⟨resolved.trace, some (0, some err)⟩
  | some (remoteLocations, none) =>
    match store.DeleteVolumeNeedle volumeId n with
    | (size, some err) =>
      ⟨resolved.trace ++ [.DeleteVolumeNeedle volumeId n], some (size, some err)⟩
    | (size, none) =>
      if remoteLocations.length > 0 then
        let calls := dispatch env.priority (remoteLocations.map (fun location =>
          Event.Delete (replicateDeleteUrl r location) jwt))
        match distributedOperation env remoteLocations
            (fun i location => env.Delete i (replicateDeleteUrl r location) jwt) with
        | some err =>
          ⟨resolved.trace ++ [.DeleteVolumeNeedle volumeId n] ++ calls, some (0, some err)⟩
        | none =>
          ⟨resolved.trace ++ [.DeleteVolumeNeedle volumeId n] ++ calls, some (size, none)⟩
      else
        ⟨resolved.trace ++ [.DeleteVolumeNeedle volumeId n], some (size, none)⟩

/-- The functions of the request boundary that the delete handler calls and that are declared
outside the source files: path and id parsing, manifest decoding, chunk deletion, the clock and
`strconv.ParseInt`. -/
structure Boundary where
  parseURLPath : String → String × String
  NewVolumeId : String → VolumeId
  ParsePath : String → Needle → Needle
  LoadChunkManifest : List Nat → Bool → ChunkManifest × GoError
  DeleteChunks : ChunkManifest → String → GoError
  now : Int
  ParseInt : String → Option Int

/-- The volume server: its store, its master and its token check. -/
structure VolumeServer where
  store : Store
  GetMaster : String
  oldMaybeCheckJwtAuthorization : Request → String → String → Bool

/-- What a handler writes: a JSON object with a `size` entry or with an `error` entry. -/
inductive Body where
  | size (count : Int)
  | error (msg : String)
deriving DecidableEq, Repr

/-- The status code and body a handler answers with. -/
structure Response where
  status : Nat
  body : Body
deriving DecidableEq, Repr

/-- The constant `http.StatusAccepted`. -/
def StatusAccepted : Nat := 202
/-- The constant `http.StatusBadRequest`. -/
def StatusBadRequest : Nat := 400
/-- The constant `http.StatusUnauthorized`. -/
def StatusUnauthorized : Nat := 401
/-- The constant `http.StatusNotFound`. -/
def StatusNotFound : Nat := 404
/-- The constant `http.StatusInternalServerError`. -/
def StatusInternalServerError : Nat := 500

/-- The helper `oldWriteJsonError`: the status and the error text. -/
def oldWriteJsonError (httpStatus : Nat) (err : String) : Response :=
  ⟨httpStatus, .error err⟩

/-- The function `oldWriteDeleteResult`. -/
def oldWriteDeleteResult (err : GoError) (count : Int) : Response :=
  match err with
  | none => ⟨StatusAccepted, .size count⟩
  | some e => oldWriteJsonError StatusInternalServerError ("Deletion Failed: " ++ e)

/-- The zero value `new(needle.Needle)`. -/
def Needle.new : Needle :=
  { Id := 0, Cookie := 0, Size := 0, Data := [], Name := "", Mime := "", Pairs := [],
    HasPairs := false, LastModified := 0, Ttl := "", IsGzipped := false,
    IsChunkedManifest := false }

/-- The conversion `uint64(x)` of a signed 64-bit value. -/
def toUint64 (x : Int) : Nat := (x % (2 : Int) ^ 64).toNat

/-- The last-modified time the handler stamps on the needle: the clock, or the `ts` form value
when it parses. -/
def deleteTimestamp (b : Boundary) (r : Request) : Nat :=
  if (r.FormValue "ts").length > 0 then
    match b.ParseInt (r.FormValue "ts") with
    | some modifiedTime => toUint64 modifiedTime
    | none => toUint64 b.now
  else toUint64 b.now

/-- The final step of `OldDeleteHandler`: stamp the needle, delegate to `OldReplicatedDelete`
and write the result. -/
def deleteAndReply (env : Env) (b : Boundary) (vs : VolumeServer) (r : Request)
    (volumeId : VolumeId) (n : Needle) (count : Int) (done : List Event) : Run Response :=
  let n := { n with LastModified := deleteTimestamp b r }
  let sub := OldReplicatedDelete env vs.GetMaster vs.store volumeId n r
  match sub.result with
  | none => ⟨done ++ [.OldReplicatedDelete volumeId n] ++ sub.trace, none⟩
  | some (_, err) =>
    ⟨done ++ [.OldReplicatedDelete volumeId n] ++ sub.trace,
      some (oldWriteDeleteResult err count)⟩

/-- The method `VolumeServer.OldDeleteHandler`. -/
def OldDeleteHandler (env : Env) (b : Boundary) (vs : VolumeServer) (r : Request) :
    Run Response :=
  let vid := (b.parseURLPath r.Path).1
  let fid := (b.parseURLPath r.Path).2
  let volumeId := b.NewVolumeId vid
  let n := b.ParsePath fid Needle.new
  if !vs.oldMaybeCheckJwtAuthorization r vid fid then
    ⟨[], some (oldWriteJsonError StatusUnauthorized "wrong jwt")⟩
  else
    let cookie := n.Cookie
    match vs.store.FindEcVolume volumeId with
    | some ecVolume =>
      let res := vs.store.DeleteEcShardNeedle ecVolume n cookie
      ⟨[.DeleteEcShardNeedle volumeId n cookie], some (oldWriteDeleteResult res.2 res.1)⟩
    | none =>
      let read := vs.store.ReadVolumeNeedle volumeId n
      let n := read.1
      let readEv := Event.ReadVolumeNeedle volumeId n read.2
      match read.2 with
      | some _ => ⟨[readEv], some ⟨StatusNotFound, .size 0⟩⟩
      | none =>
        if n.Cookie != cookie then
          ⟨[readEv], some (oldWriteJsonError StatusBadRequest
            "File Random Cookie does not match.")⟩
        else
          let count : Int := n.Size
          if n.IsChunkedManifest then
            let loaded := b.LoadChunkManifest n.Data n.IsGzipped
            let loadEv := Event.LoadChunkManifest n.Data n.IsGzipped loaded.2
            match loaded.2 with
            | some e =>
              ⟨[readEv, loadEv], some (oldWriteJsonError StatusInternalServerError
                ("Load chunks manifest error: " ++ e))⟩
            | none =>
              let chunkManifest := loaded.1
              let delEv := Event.DeleteChunks chunkManifest
                (b.DeleteChunks chunkManifest vs.GetMaster)
              match b.DeleteChunks chunkManifest vs.GetMaster with
              | some e =>
                ⟨[readEv, loadEv, delEv], some (oldWriteJsonError StatusInternalServerError
                  ("Delete chunks error: " ++ e))⟩
              | none =>
                deleteAndReply env b vs r volumeId n chunkManifest.Size
                  [readEv, loadEv, delEv]
          else
            deleteAndReply env b vs r volumeId n count [readEv]

/-- Peer calls: `operation.Upload` and `util.Delete`. -/
def Event.isPeerCall : Event → Bool
  | .Upload _ => true
  | .Delete _ _ => true
  | _ => false

/-- Mutations of the local store. -/
def Event.isStoreMutation : Event → Bool
  | .WriteVolumeNeedle _ _ => true
  | .DeleteVolumeNeedle _ _ => true
  | .DeleteEcShardNeedle _ _ _ => true
  | _ => false

/-- Directory lookups. -/
def Event.isLookup : Event → Bool
  | .Lookup _ _ => true
  | _ => false

/-- The lines `[host]: message` of the failing entries of a list of (host, error) pairs, in
list order. -/
def errorLines (m : List (String × GoError)) : List String :=
  m.filterMap (fun kv => kv.2.map (errorLine kv.1))

/-- The lines `[host]: message` of the peers whose operation failed, in launch order. -/
def failureLines (op : Nat → Location → GoError) (locations : List Location) : List String :=
  errorLines ((launch op 0 locations).map (fun r => (r.Host, r.Error)))

/-- The number of peers whose operation failed. -/
def failureCount (op : Nat → Location → GoError) (locations : List Location) : Nat :=
  ((launch op 0 locations).filter (fun r => r.Error.isSome)).length

/-- The number of line breaks in a text. -/
def lineBreaks (text : String) : Nat := text.data.count '\n'

/-- The calls the coordinators make: directory lookups, store mutations and peer calls. -/
def Event.isCoordinatorCall (e : Event) : Bool :=
  e.isLookup || e.isStoreMutation || e.isPeerCall

/-- The invocation of `OldReplicatedDelete` by the handler. -/
def Event.isReplicatedDelete : Event → Bool
  | .OldReplicatedDelete _ _ => true
  | _ => false

/-- The manifest steps of the handler: `LoadChunkManifest` and `DeleteChunks`. -/
def Event.isChunkStep : Event → Bool
  | .LoadChunkManifest _ _ _ => true
  | .DeleteChunks _ _ => true
  | _ => false

/-! ## Sample collaborators -/

/-- A needle of 128 bytes declared size, with metadata set. -/
def sampleNeedle : Needle :=
  { Id := 1, Cookie := 77, Size := 128, Data := [1, 2, 3], Name := "a.txt", Mime := "text/plain",
    Pairs := [], HasPairs := false, LastModified := 1500000000, Ttl := "3m", IsGzipped := false,
    IsChunkedManifest := true }

/-- A needle without metadata. -/
def plainNeedle : Needle :=
  { Id := 1, Cookie := 77, Size := 128, Data := [1, 2, 3], Name := "a.txt", Mime := "text/plain",
    Pairs := [], HasPairs := false, LastModified := 0, Ttl := "", IsGzipped := false,
    IsChunkedManifest := false }

/-- A client request: no `type` form value. -/
def clientRequest : Request :=
  { FormValue := fun _ => "", Path := "/7,0163", Jwt := "token" }

/-- A forwarded hop: `type=replicate`. -/
def forwardedRequest : Request :=
  { FormValue := fun k => if k = "type" then "replicate" else "", Path := "/7,0163",
    Jwt := "token" }

/-- A store at `10.0.0.1:8080` on which every volume has copy count `copyCount`, a write
commits 128 bytes and a delete reclaims 128 bytes. -/
def sampleStore (copyCount : Int) : Store :=
  { Ip := "10.0.0.1", Port := 8080,
    GetVolume := fun _ => some ⟨copyCount⟩,
    WriteVolumeNeedle := fun _ _ => (128, false, none),
    DeleteVolumeNeedle := fun _ _ => (128, none),
    FindEcVolume := fun _ => none,
    DeleteEcShardNeedle := fun _ _ _ => (0, none),
    ReadVolumeNeedle := fun _ n => (n, none) }

/-- A store whose write fails while reporting size 5 and `isUnchanged = true`. -/
def failingStore : Store :=
  { sampleStore 1 with WriteVolumeNeedle := fun _ _ => (5, true, some "disk full") }

/-- A directory that answers with `locations`, peers that all succeed, goroutines running and
results arriving in launch order, and maps visited in insertion order. -/
def sampleEnv (locations : List Location) : Env :=
  { Lookup := fun _ _ => .ok locations,
    Upload := fun _ _ => none,
    Delete := fun _ _ _ => none,
    arrival := id,
    range := id,
    priority := fun i => i }

/-- This node and two peers. -/
def threeLocations : List Location :=
  [⟨"10.0.0.1:8080", "a"⟩, ⟨"10.0.0.2:8080", "b"⟩, ⟨"10.0.0.3:8080", "c"⟩]

/-- This node and one peer. -/
def twoLocations : List Location :=
  [⟨"10.0.0.1:8080", "a"⟩, ⟨"10.0.0.2:8080", "b"⟩]

/-- Two looked-up entries for the same peer host. -/
def duplicateLocations : List Location :=
  [⟨"10.0.0.2:8080", "b"⟩, ⟨"10.0.0.2:8080", "b"⟩]

/-- A directory that lists this node once and the peer `10.0.0.2:8080` twice; the first peer
delete fails with `conn refused`, the second succeeds; results arrive in launch order. -/
def duplicateEnv : Env :=
  { Lookup := fun _ _ => .ok (⟨"10.0.0.1:8080", "a"⟩ :: duplicateLocations),
    Upload := fun i _ => if i = 0 then some "conn refused" else none,
    Delete := fun i _ _ => if i = 0 then some "conn refused" else none,
    arrival := id,
    range := id,
    priority := fun i => i }

/-- A directory that answers with `locations` and peers of which the one launched second
fails with `conn refused`. -/
def flakyEnv (locations : List Location) : Env :=
  { Lookup := fun _ _ => .ok locations,
    Upload := fun i _ => if i = 1 then some "conn refused" else none,
    Delete := fun i _ _ => if i = 1 then some "conn refused" else none,
    arrival := id,
    range := id,
    priority := fun i => i }

/-- A directory that answers with `locations`, peers that all succeed, and a scheduler that
runs the goroutines in reverse launch order. -/
def reversedEnv (locations : List Location) : Env :=
  { Lookup := fun _ _ => .ok locations,
    Upload := fun _ _ => none,
    Delete := fun _ _ _ => none,
    arrival := id,
    range := id,
    priority := fun i => 100 - i }

/-- A boundary that parses every path to volume 7 and a needle key with cookie 99, decodes
every manifest, deletes every chunk, and reads the clock at 1600000000. -/
def sampleBoundary : Boundary :=
  { parseURLPath := fun _ => ("7", "0163"),
    NewVolumeId := fun _ => 7,
    ParsePath := fun _ n => { n with Id := 1, Cookie := 99 },
    LoadChunkManifest := fun _ _ => (⟨"big.bin", 4096⟩, none),
    DeleteChunks := fun _ _ => none,
    now := 1600000000,
    ParseInt := fun _ => none }

/-- A boundary whose chunk deletion fails. -/
def failingChunksBoundary : Boundary :=
  { sampleBoundary with DeleteChunks := fun _ _ => some "chunk 3 unreachable" }

/-- A volume server without token check whose unreplicated store holds, under every key, the
needle `stored`. -/
def sampleServer (stored : Needle) : VolumeServer :=
  { store := { sampleStore 1 with ReadVolumeNeedle := fun _ _ => (stored, none) },
    GetMaster := "master",
    oldMaybeCheckJwtAuthorization := fun _ _ _ => true }

/-- A volume server like `sampleServer` whose token check rejects every request. -/
def lockedServer (stored : Needle) : VolumeServer :=
  { sampleServer stored with oldMaybeCheckJwtAuthorization := fun _ _ _ => false }

/-- A stored chunk-manifest needle whose cookie is the one the sample boundary parses. -/
def manifestNeedle : Needle := { sampleNeedle with Cookie := 99 }

/-! ## Resolution -/

theorem foldl_append_filter {α : Type} (p : α → Bool) (l acc : List α) :
    l.foldl (fun out a => if p a then out ++ [a] else out) acc = acc ++ l.filter p := by
  induction l generalizing acc with
  | nil => simp
  | cons a l ih =>
    simp only [List.foldl_cons, ih, List.filter_cons]
    split <;> simp

theorem resolve_forwarded (env : Env) (s : Store) (volumeId : VolumeId) (masterNode : String)
    (r : Request) (h : r.FormValue "type" = "replicate") :
    resolve env s volumeId masterNode r = ⟨[], some ([], none)⟩ := by
  simp [resolve, h]

theorem resolve_client (env : Env) (s : Store) (volumeId : VolumeId) (masterNode : String)
    (r : Request) (h : r.FormValue "type" ≠ "replicate") :
    resolve env s volumeId masterNode r
      = getWritableRemoteReplications env s volumeId masterNode := by
  simp [resolve, h]

/-- C1. Fail-closed resolution: on a client (non-forwarded) request for a volume whose copy
count is `C > 1`, when the directory answers with `L < C` locations, all four coordinators return
size 0 (and `isUnchanged = false`) with the error
`replicating opetations [L] is less than volume's replication copy count [C]`, and the only call
they make is the directory lookup: no store call and no peer call. -/
theorem fail_closed_resolution (env : Env) (masterNode : String) (s : Store)
    (volumeId : VolumeId) (n : Needle) (r : Request) (volume : Volume)
    (locations : List Location)
    (hclient : r.FormValue "type" ≠ "replicate")
    (hvol : s.GetVolume volumeId = some volume)
    (hC : volume.CopyCount > 1)
    (hlook : env.Lookup masterNode (VolumeId.String volumeId) = .ok locations)
    (hL : (locations.length : Int) < volume.CopyCount) :
    ReplicatedWrite env masterNode s volumeId n r
        = ⟨[.Lookup masterNode (VolumeId.String volumeId)],
            some (0, false, some ("replicating opetations [" ++ toString locations.length
              ++ "] is less than volume's replication copy count ["
              ++ toString volume.CopyCount ++ "]"))⟩
    ∧ OldReplicatedWrite env masterNode s volumeId n r
        = ⟨[.Lookup masterNode (VolumeId.String volumeId)],
            some (0, false, some ("replicating opetations [" ++ toString locations.length
              ++ "] is less than volume's replication copy count ["
              ++ toString volume.CopyCount ++ "]"))⟩
    ∧ ReplicatedDelete env masterNode s volumeId n r
        = ⟨[.Lookup masterNode (VolumeId.String volumeId)],
            some (0, some ("replicating opetations [" ++ toString locations.length
              ++ "] is less than volume's replication copy count ["
              ++ toString volume.CopyCount ++ "]"))⟩
    ∧ OldReplicatedDelete env masterNode s volumeId n r
        = ⟨[.Lookup masterNode (VolumeId.String volumeId)],
            some (0, some ("replicating opetations [" ++ toString locations.length
              ++ "] is less than volume's replication copy count ["
              ++ toString volume.CopyCount ++ "]"))⟩ := by
  have hres : resolve env s volumeId masterNode r
      = ⟨[.Lookup masterNode (VolumeId.String volumeId)],
          some ([], some ("replicating opetations [" ++ toString locations.length
            ++ "] is less than volume's replication copy count ["
            ++ toString volume.CopyCount ++ "]"))⟩ := by
    rw [resolve_client env s volumeId masterNode r hclient]
    simp [getWritableRemoteReplications, hvol, hC, hlook, hL]
  refine ⟨?_, ?_, ?_, ?_⟩
  · simp [ReplicatedWrite, hres]
  · simp [OldReplicatedWrite, hres]
  · simp [ReplicatedDelete, hres]
  · simp [OldReplicatedDelete, hres]

/-- Scenario B of the specification: copy count 3, the directory returns 2 locations. -/
theorem fail_closed_resolution_witness :
    ReplicatedWrite (sampleEnv twoLocations) "master" (sampleStore 3) 7 sampleNeedle clientRequest
        = ⟨[.Lookup "master" "7"],
            some (0, false, some
              "replicating opetations [2] is less than volume's replication copy count [3]")⟩
    ∧ OldReplicatedWrite (sampleEnv twoLocations) "master" (sampleStore 3) 7 sampleNeedle
          clientRequest
        = ⟨[.Lookup "master" "7"],
            some (0, false, some
              "replicating opetations [2] is less than volume's replication copy count [3]")⟩
    ∧ ReplicatedDelete (sampleEnv twoLocations) "master" (sampleStore 3) 7 sampleNeedle
          clientRequest
        = ⟨[.Lookup "master" "7"],
            some (0, some
              "replicating opetations [2] is less than volume's replication copy count [3]")⟩
    ∧ OldReplicatedDelete (sampleEnv twoLocations) "master" (sampleStore 3) 7 sampleNeedle
          clientRequest
        = ⟨[.Lookup "master" "7"],
            some (0, some
              "replicating opetations [2] is less than volume's replication copy count [3]")⟩ :=
  fail_closed_resolution (sampleEnv twoLocations) "master" (sampleStore 3) 7 sampleNeedle
    clientRequest ⟨3⟩ twoLocations (by decide) rfl (by decide) rfl (by decide)

/-- C6. Unreplicated volumes: for a volume whose copy count is at most 1,
`getWritableRemoteReplications` returns the empty replica set and a nil error without any
directory lookup (empty trace), and `ReplicatedWrite`, whenever the local commit succeeds with
`(size, isUnchanged, nil)`, makes that one store call, contacts no peer and returns
`(size, isUnchanged, nil)` unchanged. -/
theorem unreplicated_volume (env : Env) (masterNode : String) (s : Store)
    (volumeId : VolumeId) (volume : Volume)
    (hvol : s.GetVolume volumeId = some volume)
    (hC : volume.CopyCount ≤ 1) :
    getWritableRemoteReplications env s volumeId masterNode = ⟨[], some ([], none)⟩
    ∧ ∀ (n : Needle) (r : Request) (size : Nat) (isUnchanged : Bool),
        s.WriteVolumeNeedle volumeId n = (size, isUnchanged, none) →
        ReplicatedWrite env masterNode s volumeId n r
          = ⟨[.WriteVolumeNeedle volumeId n], some (size, isUnchanged, none)⟩ := by
  have hget : getWritableRemoteReplications env s volumeId masterNode
      = ⟨[], some ([], none)⟩ := by
    have : ¬ volume.CopyCount > 1 := by omega
    simp [getWritableRemoteReplications, hvol, this]
  refine ⟨hget, ?_⟩
  intro n r size isUnchanged hw
  have hres : resolve env s volumeId masterNode r = ⟨[], some ([], none)⟩ := by
    unfold resolve
    split
    · exact hget
    · rfl
  simp [ReplicatedWrite, hres, hw]

/-- Scenario A of the specification: volume 5, copy count 1, a local commit of 128 bytes. -/
theorem unreplicated_volume_witness :
    getWritableRemoteReplications (sampleEnv threeLocations) (sampleStore 1) 5 "master"
        = ⟨[], some ([], none)⟩
    ∧ ReplicatedWrite (sampleEnv threeLocations) "master" (sampleStore 1) 5 sampleNeedle
          clientRequest
        = ⟨[.WriteVolumeNeedle 5 sampleNeedle], some (128, false, none)⟩ :=
  have h := unreplicated_volume (sampleEnv threeLocations) "master" (sampleStore 1) 5 ⟨1⟩ rfl
    (by decide)
  ⟨h.1, h.2 sampleNeedle clientRequest 128 false rfl⟩

/-- C7. Self-exclusion: for a volume with copy count `C > 1` and a successful directory lookup
that returns at least `C` locations, `getWritableRemoteReplications` returns, with a nil error,
exactly the looked-up locations whose `Url` differs from this node's `Ip:Port`, in their original
order; so no returned location has this node's address and every other looked-up location is
returned. -/
theorem self_exclusion (env : Env) (masterNode : String) (s : Store)
    (volumeId : VolumeId) (volume : Volume) (locations : List Location)
    (hvol : s.GetVolume volumeId = some volume)
    (hC : volume.CopyCount > 1)
    (hlook : env.Lookup masterNode (VolumeId.String volumeId) = .ok locations)
    (hL : volume.CopyCount ≤ (locations.length : Int)) :
    getWritableRemoteReplications env s volumeId masterNode
        = ⟨[.Lookup masterNode (VolumeId.String volumeId)],
            some (locations.filter (fun location => location.Url != s.Ip ++ ":" ++ toString s.Port),
              none)⟩
    ∧ (∀ remote, (getWritableRemoteReplications env s volumeId masterNode).result
            = some (remote, none) →
        (∀ location ∈ remote, location.Url ≠ s.Ip ++ ":" ++ toString s.Port)
        ∧ (∀ location ∈ locations, location.Url ≠ s.Ip ++ ":" ++ toString s.Port →
            location ∈ remote)
        ∧ remote.Sublist locations) := by
  have hget : getWritableRemoteReplications env s volumeId masterNode
      = ⟨[.Lookup masterNode (VolumeId.String volumeId)],
          some (locations.filter (fun location => location.Url != s.Ip ++ ":" ++ toString s.Port),
            none)⟩ := by
    have hnot : ¬ (locations.length : Int) < volume.CopyCount := by omega
    simp only [getWritableRemoteReplications, hvol, hC, hlook, hnot, if_true, if_false]
    rw [foldl_append_filter (fun location : Location => location.Url != s.Ip ++ ":" ++ toString s.Port)]
    simp
  refine ⟨hget, ?_⟩
  intro remote hremote
  rw [hget] at hremote
  simp only [Option.some.injEq, Prod.mk.injEq, and_true] at hremote
  subst hremote
  refine ⟨?_, ?_, List.filter_sublist _⟩
  · intro location hmem
    simpa using (List.mem_filter.mp hmem).2
  · intro location hmem hne
    exact List.mem_filter.mpr ⟨hmem, by simpa using hne⟩

/-- Copy count 3 and three looked-up locations, the first of which is this node. -/
theorem self_exclusion_witness :
    getWritableRemoteReplications (sampleEnv threeLocations) (sampleStore 3) 7 "master"
        = ⟨[.Lookup "master" "7"],
            some ([⟨"10.0.0.2:8080", "b"⟩, ⟨"10.0.0.3:8080", "c"⟩], none)⟩ :=
  (self_exclusion (sampleEnv threeLocations) "master" (sampleStore 3) 7 ⟨3⟩ threeLocations rfl
    (by decide) rfl (by decide)).1

/-! ## Scheduling of the peer calls -/

theorem insertByRank_perm (x : Nat × Event) (l : List (Nat × Event)) :
    (insertByRank x l).Perm (x :: l) := by
  induction l with
  | nil => exact List.Perm.refl _
  | cons y rest ih =>
    unfold insertByRank
    split
    · exact List.Perm.refl _
    · exact (List.Perm.cons y ih).trans (List.Perm.swap x y rest)

theorem rankedFrom_perm (priority : Nat → Nat) (i : Nat) (calls : List Event) :
    ((rankedFrom priority i calls).map Prod.snd).Perm calls := by
  induction calls generalizing i with
  | nil => exact List.Perm.refl _
  | cons call rest ih =>
    unfold rankedFrom
    exact ((insertByRank_perm _ _).map Prod.snd).trans (List.Perm.cons call (ih (i + 1)))

theorem dispatch_perm (priority : Nat → Nat) (calls : List Event) :
    (dispatch priority calls).Perm calls :=
  rankedFrom_perm priority 0 calls

theorem mem_dispatch (priority : Nat → Nat) (calls : List Event) (e : Event) :
    e ∈ dispatch priority calls ↔ e ∈ calls :=
  (dispatch_perm priority calls).mem_iff

/-! ## Local commit -/

theorem resolve_trace_lookup_only (env : Env) (s : Store) (volumeId : VolumeId)
    (masterNode : String) (r : Request) :
    (resolve env s volumeId masterNode r).trace = []
    ∨ (resolve env s volumeId masterNode r).trace
        = [.Lookup masterNode (VolumeId.String volumeId)] := by
  unfold resolve getWritableRemoteReplications
  repeat' split
  all_goals try simp
  all_goals repeat' split
  all_goals simp

theorem resolve_trace_no_peer (env : Env) (s : Store) (volumeId : VolumeId)
    (masterNode : String) (r : Request) :
    (resolve env s volumeId masterNode r).trace.filter Event.isPeerCall = []
    ∧ (resolve env s volumeId masterNode r).trace.filter Event.isStoreMutation = [] := by
  rcases resolve_trace_lookup_only env s volumeId masterNode r with h | h <;>
    simp [h, Event.isPeerCall, Event.isStoreMutation]

/-- C3, as the code has it. Write, local commit failure: once the replica set is resolved
(or resolution is skipped for a forwarded hop), if the store's `WriteVolumeNeedle` returns
`(size, isUnchanged, err)` with a non-nil `err`, then `ReplicatedWrite` and `OldReplicatedWrite`
make the store call and stop: no peer is contacted, the error returned is
`failed to write to local disk: err`, and `size` and `isUnchanged` are the values the store
returned alongside its error. -/
theorem write_local_failure (env : Env) (masterNode : String) (s : Store)
    (volumeId : VolumeId) (n : Needle) (r : Request) (remote : List Location)
    (size : Nat) (isUnchanged : Bool) (e : String)
    (hres : (resolve env s volumeId masterNode r).result = some (remote, none))
    (hw : s.WriteVolumeNeedle volumeId n = (size, isUnchanged, some e)) :
    ReplicatedWrite env masterNode s volumeId n r
        = ⟨(resolve env s volumeId masterNode r).trace ++ [.WriteVolumeNeedle volumeId n],
            some (size, isUnchanged, some ("failed to write to local disk: " ++ e))⟩
    ∧ OldReplicatedWrite env masterNode s volumeId n r
        = ⟨(resolve env s volumeId masterNode r).trace ++ [.WriteVolumeNeedle volumeId n],
            some (size, isUnchanged, some ("failed to write to local disk: " ++ e))⟩
    ∧ (ReplicatedWrite env masterNode s volumeId n r).trace.filter Event.isPeerCall = []
    ∧ (OldReplicatedWrite env masterNode s volumeId n r).trace.filter Event.isPeerCall = [] := by
  have h1 : ReplicatedWrite env masterNode s volumeId n r
      = ⟨(resolve env s volumeId masterNode r).trace ++ [.WriteVolumeNeedle volumeId n],
          some (size, isUnchanged, some ("failed to write to local disk: " ++ e))⟩ := by
    simp [ReplicatedWrite, hres, hw]
  have h2 : OldReplicatedWrite env masterNode s volumeId n r
      = ⟨(resolve env s volumeId masterNode r).trace ++ [.WriteVolumeNeedle volumeId n],
          some (size, isUnchanged, some ("failed to write to local disk: " ++ e))⟩ := by
    simp [OldReplicatedWrite, hres, hw]
  refine ⟨h1, h2, ?_, ?_⟩
  · rw [h1]
    simp [List.filter_append, (resolve_trace_no_peer env s volumeId masterNode r).1,
      Event.isPeerCall]
  · rw [h2]
    simp [List.filter_append, (resolve_trace_no_peer env s volumeId masterNode r).1,
      Event.isPeerCall]

/-- A client write on a volume with three replicas whose local commit fails. -/
theorem write_local_failure_witness :
    ReplicatedWrite (sampleEnv threeLocations) "master"
        { sampleStore 3 with WriteVolumeNeedle := fun _ _ => (5, true, some "disk full") }
        7 sampleNeedle clientRequest
      = ⟨[.Lookup "master" "7", .WriteVolumeNeedle 7 sampleNeedle],
          some (5, true, some "failed to write to local disk: disk full")⟩ :=
  (write_local_failure (sampleEnv threeLocations) "master"
    { sampleStore 3 with WriteVolumeNeedle := fun _ _ => (5, true, some "disk full") }
    7 sampleNeedle clientRequest [⟨"10.0.0.2:8080", "b"⟩, ⟨"10.0.0.3:8080", "c"⟩] 5 true
    "disk full" rfl rfl).1

/-- C3 as stated fails: the store reports size 5 and `isUnchanged = true` alongside its error,
and `ReplicatedWrite` and `OldReplicatedWrite` return those values, not size 0 and
`isUnchanged = false`. -/
theorem write_local_failure_not_reset :
    failingStore.WriteVolumeNeedle 5 sampleNeedle = (5, true, some "disk full")
    ∧ ReplicatedWrite (sampleEnv threeLocations) "master" failingStore 5 sampleNeedle
          clientRequest
        = ⟨[.WriteVolumeNeedle 5 sampleNeedle],
            some (5, true, some "failed to write to local disk: disk full")⟩
    ∧ OldReplicatedWrite (sampleEnv threeLocations) "master" failingStore 5 sampleNeedle
          clientRequest
        = ⟨[.WriteVolumeNeedle 5 sampleNeedle],
            some (5, true, some "failed to write to local disk: disk full")⟩
    ∧ ¬ ∃ err, (ReplicatedWrite (sampleEnv threeLocations) "master" failingStore 5 sampleNeedle
          clientRequest).result = some (0, false, err) := by
  refine ⟨rfl, rfl, rfl, ?_⟩
  rintro ⟨err, h⟩
  have h2 : (ReplicatedWrite (sampleEnv threeLocations) "master" failingStore 5 sampleNeedle
      clientRequest).result
      = some (5, true, some "failed to write to local disk: disk full") := rfl
  rw [h2] at h
  simp at h

/-! ## Forwarded hops -/

/-- C5, as the code has it. Recursion guard: on a forwarded hop (form value `type` equal to
`replicate`), whatever the volume's copy count (the volume is not even consulted) and whatever
the directory would answer, each coordinator makes exactly one call, the local commit or
delete: no directory lookup and no peer call. `ReplicatedDelete` and `OldReplicatedDelete`
return exactly the store's `(size, error)`; `ReplicatedWrite` and `OldReplicatedWrite` return the
store's `size` and `isUnchanged`, and its error nil when nil and otherwise wrapped as
`failed to write to local disk: error`. -/
theorem forwarded_hop_local_only (env : Env) (masterNode : String) (s : Store)
    (volumeId : VolumeId) (n : Needle) (r : Request)
    (hfwd : r.FormValue "type" = "replicate") :
    ReplicatedWrite env masterNode s volumeId n r
        = ⟨[.WriteVolumeNeedle volumeId n],
            some ((s.WriteVolumeNeedle volumeId n).1, (s.WriteVolumeNeedle volumeId n).2.1,
              (s.WriteVolumeNeedle volumeId n).2.2.map
                (fun e => "failed to write to local disk: " ++ e))⟩
    ∧ OldReplicatedWrite env masterNode s volumeId n r
        = ⟨[.WriteVolumeNeedle volumeId n],
            some ((s.WriteVolumeNeedle volumeId n).1, (s.WriteVolumeNeedle volumeId n).2.1,
              (s.WriteVolumeNeedle volumeId n).2.2.map
                (fun e => "failed to write to local disk: " ++ e))⟩
    ∧ ReplicatedDelete env masterNode s volumeId n r
        = ⟨[.DeleteVolumeNeedle volumeId n], some (s.DeleteVolumeNeedle volumeId n)⟩
    ∧ OldReplicatedDelete env masterNode s volumeId n r
        = ⟨[.DeleteVolumeNeedle volumeId n], some (s.DeleteVolumeNeedle volumeId n)⟩ := by
  have hres := resolve_forwarded env s volumeId masterNode r hfwd
  refine ⟨?_, ?_, ?_, ?_⟩
  · rcases hw : s.WriteVolumeNeedle volumeId n with ⟨size, isUnchanged, _ | e⟩ <;>
      simp [ReplicatedWrite, hres, hw]
  · rcases hw : s.WriteVolumeNeedle volumeId n with ⟨size, isUnchanged, _ | e⟩ <;>
      simp [OldReplicatedWrite, hres, hw]
  · rcases hd : s.DeleteVolumeNeedle volumeId n with ⟨size, _ | e⟩ <;>
      simp [ReplicatedDelete, hres, hd]
  · rcases hd : s.DeleteVolumeNeedle volumeId n with ⟨size, _ | e⟩ <;>
      simp [OldReplicatedDelete, hres, hd]

/-- A forwarded write and delete on a volume with three replicas. -/
theorem forwarded_hop_local_only_witness :
    ReplicatedWrite (sampleEnv threeLocations) "master" (sampleStore 3) 7 sampleNeedle
          forwardedRequest
        = ⟨[.WriteVolumeNeedle 7 sampleNeedle], some (128, false, none)⟩
    ∧ ReplicatedDelete (sampleEnv threeLocations) "master" (sampleStore 3) 7 sampleNeedle
          forwardedRequest
        = ⟨[.DeleteVolumeNeedle 7 sampleNeedle], some (128, none)⟩ :=
  have h := forwarded_hop_local_only (sampleEnv threeLocations) "master" (sampleStore 3) 7
    sampleNeedle forwardedRequest rfl
  ⟨h.1, h.2.2.1⟩

/-- C5 as stated fails for a failing forwarded write: the store returns the error `disk full`
and `ReplicatedWrite` / `OldReplicatedWrite` return the error
`failed to write to local disk: disk full`, which is not the store's result. -/
theorem forwarded_write_error_wrapped :
    forwardedRequest.FormValue "type" = "replicate"
    ∧ failingStore.WriteVolumeNeedle 7 sampleNeedle = (5, true, some "disk full")
    ∧ (ReplicatedWrite (sampleEnv threeLocations) "master" failingStore 7 sampleNeedle
          forwardedRequest).result
        = some (5, true, some "failed to write to local disk: disk full")
    ∧ (ReplicatedWrite (sampleEnv threeLocations) "master" failingStore 7 sampleNeedle
          forwardedRequest).result
        ≠ some (failingStore.WriteVolumeNeedle 7 sampleNeedle)
    ∧ (OldReplicatedWrite (sampleEnv threeLocations) "master" failingStore 7 sampleNeedle
          forwardedRequest).result
        ≠ some (failingStore.WriteVolumeNeedle 7 sampleNeedle) := by
  refine ⟨rfl, rfl, rfl, ?_, ?_⟩
  · have h2 : (ReplicatedWrite (sampleEnv threeLocations) "master" failingStore 7 sampleNeedle
        forwardedRequest).result
        = some (5, true, some "failed to write to local disk: disk full") := rfl
    have h3 : failingStore.WriteVolumeNeedle 7 sampleNeedle = (5, true, some "disk full") := rfl
    rw [h2, h3]
    decide
  · have h2 : (OldReplicatedWrite (sampleEnv threeLocations) "master" failingStore 7 sampleNeedle
        forwardedRequest).result
        = some (5, true, some "failed to write to local disk: disk full") := rfl
    have h3 : failingStore.WriteVolumeNeedle 7 sampleNeedle = (5, true, some "disk full") := rfl
    rw [h2, h3]
    decide

/-! ## Fan-out -/

theorem set_of_not_mem (dr : DistributedOperationResult) (k : String) (v : GoError)
    (h : k ∉ dr.map Prod.fst) : DistributedOperationResult.set dr k v = dr ++ [(k, v)] := by
  induction dr with
  | nil => rfl
  | cons kv rest ih =>
    obtain ⟨k0, v0⟩ := kv
    simp only [List.map_cons, List.mem_cons, not_or] at h
    have hne : ¬ k0 = k := fun e => h.1 e.symm
    simp [DistributedOperationResult.set, hne, ih h.2]

theorem collect_of_nodup (rs : List RemoteResult) (acc : DistributedOperationResult)
    (hnodup : (rs.map RemoteResult.Host).Nodup)
    (hdisj : ∀ r ∈ rs, r.Host ∉ acc.map Prod.fst) :
    rs.foldl (fun ret result => DistributedOperationResult.set ret result.Host result.Error) acc
      = acc ++ rs.map (fun r => (r.Host, r.Error)) := by
  induction rs generalizing acc with
  | nil => simp
  | cons r rest ih =>
    simp only [List.map_cons, List.nodup_cons] at hnodup
    have hr : r.Host ∉ acc.map Prod.fst := hdisj r (List.mem_cons_self _ _)
    simp only [List.foldl_cons, set_of_not_mem acc r.Host r.Error hr]
    rw [ih _ hnodup.2]
    · simp
    · intro r2 hr2
      have h1 := hdisj r2 (List.mem_cons_of_mem _ hr2)
      have h2 : r2.Host ≠ r.Host := by
        intro e
        exact hnodup.1 (e ▸ List.mem_map_of_mem RemoteResult.Host hr2)
      simp only [List.map_append, List.map_cons, List.map_nil, List.mem_append,
        List.mem_singleton, not_or]
      exact ⟨h1, h2⟩

theorem foldl_errorLines (visit : List (String × GoError)) (acc : List String) :
    visit.foldl
      (fun errs kv =>
        match kv.2 with
        | some v => errs ++ [errorLine kv.1 v]
        | none => errs) acc
      = acc ++ errorLines visit := by
  induction visit generalizing acc with
  | nil => simp [errorLines]
  | cons kv rest ih =>
    obtain ⟨k, v⟩ := kv
    cases v with
    | none => simp [ih, errorLines]
    | some m => simp [ih, errorLines]

theorem Error_eq (range : DistributedOperationResult → DistributedOperationResult)
    (dr : DistributedOperationResult) :
    DistributedOperationResult.Error range dr
      = if errorLines (range dr) = [] then none
        else some (stringsJoin (errorLines (range dr)) "\n") := by
  unfold DistributedOperationResult.Error
  simp only [foldl_errorLines, List.nil_append, List.length_eq_zero]

theorem launch_hosts (op : Nat → Location → GoError) (i : Nat) (locations : List Location) :
    (launch op i locations).map RemoteResult.Host = locations.map Location.Url := by
  induction locations generalizing i with
  | nil => rfl
  | cons l rest ih => simp [launch, ih]

theorem mem_launch (op : Nat → Location → GoError) (j : Nat) (locations : List Location)
    (r : RemoteResult) :
    r ∈ launch op j locations
      ↔ ∃ i location, locations[i]? = some location ∧ r = ⟨location.Url, op (j + i) location⟩ := by
  induction locations generalizing j with
  | nil => simp [launch]
  | cons l rest ih =>
    simp only [launch, List.mem_cons, ih]
    constructor
    · rintro (h | ⟨i, location, hi, hr⟩)
      · exact ⟨0, l, by simp, by simpa using h⟩
      · exact ⟨i + 1, location, by simpa using hi, by rw [hr]; congr 2; omega⟩
    · rintro ⟨i, location, hi, hr⟩
      cases i with
      | zero =>
        simp only [List.getElem?_cons_zero, Option.some.injEq] at hi
        subst hi
        left
        simpa using hr
      | succ i =>
        right
        exact ⟨i, location, by simpa using hi, by rw [hr]; congr 2; omega⟩

/-- With pairwise distinct hosts, the lines of the combined error are a rearrangement of the
failing peers' lines. -/
theorem distributedOperation_eq (env : Env) (hfair : env.fair) (locations : List Location)
    (op : Nat → Location → GoError) (hdistinct : (locations.map Location.Url).Nodup) :
    ∃ lines : List String,
      lines.Perm (failureLines op locations)
      ∧ distributedOperation env locations op
          = if lines = [] then none else some (stringsJoin lines "\n") := by
  have harr := hfair.1 (launch op 0 locations)
  have hnodup : ((env.arrival (launch op 0 locations)).map RemoteResult.Host).Nodup := by
    rw [(harr.map RemoteResult.Host).nodup_iff, launch_hosts]
    exact hdistinct
  have hret := collect_of_nodup (env.arrival (launch op 0 locations)) [] hnodup (by simp)
  refine ⟨errorLines (env.range ((env.arrival (launch op 0 locations)).map
    (fun r => (r.Host, r.Error)))), ?_, ?_⟩
  · unfold failureLines errorLines
    exact ((hfair.2 _).trans (harr.map _)).filterMap _
  · unfold distributedOperation
    simp only [hret, List.nil_append, Error_eq]

theorem failureLines_length (op : Nat → Location → GoError) (locations : List Location) :
    (failureLines op locations).length = failureCount op locations := by
  unfold failureLines failureCount errorLines
  induction launch op 0 locations with
  | nil => rfl
  | cons r rest ih =>
    obtain ⟨h, e⟩ := r
    cases e with
    | none => simpa using ih
    | some m => simpa using ih

theorem failureLines_eq_nil (op : Nat → Location → GoError) (locations : List Location) :
    failureLines op locations = []
      ↔ ∀ i location, locations[i]? = some location → op i location = none := by
  unfold failureLines errorLines
  rw [List.filterMap_eq_nil_iff]
  constructor
  · intro h i location hi
    have hmem : (⟨location.Url, op i location⟩ : RemoteResult) ∈ launch op 0 locations :=
      (mem_launch op 0 locations _).mpr ⟨i, location, hi, by simp⟩
    have := h (location.Url, op i location) (List.mem_map.mpr ⟨_, hmem, rfl⟩)
    simpa using this
  · intro h kv hkv
    obtain ⟨r, hr, rfl⟩ := List.mem_map.mp hkv
    obtain ⟨i, location, hi, rfl⟩ := (mem_launch op 0 locations r).mp hr
    have := h i location hi
    simp only [Nat.zero_add] at *
    simp [this]

theorem lineBreaks_append (a b : String) : lineBreaks (a ++ b) = lineBreaks a + lineBreaks b := by
  simp [lineBreaks]

theorem lineBreaks_stringsJoin (lines : List String) (hne : lines ≠ [])
    (h : ∀ line ∈ lines, lineBreaks line = 0) :
    lineBreaks (stringsJoin lines "\n") = lines.length - 1 := by
  induction lines with
  | nil => exact absurd rfl hne
  | cons a rest ih =>
    cases rest with
    | nil => simpa [stringsJoin] using h a (List.mem_cons_self _ _)
    | cons b rest2 =>
      have ha := h a (List.mem_cons_self _ _)
      have hrest := ih (by simp) (fun line hl => h line (List.mem_cons_of_mem _ hl))
      have hnl : lineBreaks "\n" = 1 := by decide
      simp only [stringsJoin, lineBreaks_append, ha, hrest, hnl, List.length_cons]
      omega

theorem sampleEnv_fair (locations : List Location) : (sampleEnv locations).fair :=
  ⟨fun _ => List.Perm.refl _, fun _ => List.Perm.refl _⟩

theorem flakyEnv_fair (locations : List Location) : (flakyEnv locations).fair :=
  ⟨fun _ => List.Perm.refl _, fun _ => List.Perm.refl _⟩

/-- C2, as the code has it. Fan-out aggregation: for every list of peer locations with pairwise
distinct hosts (`Url`), every per-peer operation, every arrival order of the results and every
iteration order of the result map, `distributedOperation` returns nil if and only if every
peer's operation returned nil; and when exactly `k ≥ 1` peers fail it returns a non-nil error
whose text is the join by line breaks of exactly `k` entries, one per failing peer, each of the
form `[host]: message` for that peer's host and error message; when no entry itself contains a
line break the text has exactly `k - 1` line breaks, that is `k` lines. -/
theorem fan_out_aggregation (env : Env) (hfair : env.fair) (locations : List Location)
    (op : Nat → Location → GoError) (hdistinct : (locations.map Location.Url).Nodup) :
    (distributedOperation env locations op = none
        ↔ ∀ i location, locations[i]? = some location → op i location = none)
    ∧ ∀ k, 1 ≤ k → failureCount op locations = k →
        ∃ lines : List String,
          lines.length = k
          ∧ lines.Perm (failureLines op locations)
          ∧ distributedOperation env locations op = some (stringsJoin lines "\n")
          ∧ ((∀ line ∈ lines, lineBreaks line = 0) →
              lineBreaks (stringsJoin lines "\n") = k - 1) := by
  obtain ⟨lines, hperm, hrun⟩ := distributedOperation_eq env hfair locations op hdistinct
  constructor
  · rw [hrun, ← failureLines_eq_nil]
    constructor
    · intro h
      by_cases hl : lines = []
      · rw [hl] at hperm
        exact List.Perm.eq_nil hperm.symm
      · simp [hl] at h
    · intro h
      rw [h] at hperm
      simp [List.Perm.eq_nil hperm]
  · intro k hk hcount
    have hlen : lines.length = k := by
      rw [hperm.length_eq, failureLines_length, hcount]
    have hl : lines ≠ [] := by
      intro e
      rw [e] at hlen
      simp at hlen
      omega
    refine ⟨lines, hlen, hperm, ?_, ?_⟩
    · rw [hrun]
      simp [hl]
    · intro hno
      rw [lineBreaks_stringsJoin lines hl hno, hlen]

/-- Three peers with distinct hosts, of which the one launched second fails. -/
theorem fan_out_aggregation_witness :
    ∃ lines : List String,
      lines.length = 1
      ∧ lines.Perm ["[10.0.0.2:8080]: conn refused"]
      ∧ distributedOperation (sampleEnv []) threeLocations
          (fun i _ => if i = 1 then some "conn refused" else none)
          = some (stringsJoin lines "\n")
      ∧ ((∀ line ∈ lines, lineBreaks line = 0) →
          lineBreaks (stringsJoin lines "\n") = 1 - 1) :=
  (fan_out_aggregation (sampleEnv []) (sampleEnv_fair []) threeLocations
    (fun i _ => if i = 1 then some "conn refused" else none) (by decide)).2 1 (by decide) rfl

/-- C2 as stated fails when two locations share a host. With the peer `10.0.0.2:8080` listed
twice: if the first operation fails and the second succeeds, the later nil overwrites the map
entry and `distributedOperation` returns nil although one operation failed; if both operations
fail, two peers fail and the error text is the single line `[10.0.0.2:8080]: conn refused`. -/
theorem fan_out_duplicate_hosts :
    ¬ (distributedOperation (sampleEnv []) duplicateLocations
          (fun i _ => if i = 0 then some "conn refused" else none) = none
        ↔ ∀ i location, duplicateLocations[i]? = some location →
            (fun (i : Nat) (_ : Location) => if i = 0 then some "conn refused" else none)
              i location = none)
    ∧ failureCount (fun _ _ => some "conn refused") duplicateLocations = 2
    ∧ distributedOperation (sampleEnv []) duplicateLocations (fun _ _ => some "conn refused")
        = some "[10.0.0.2:8080]: conn refused"
    ∧ lineBreaks "[10.0.0.2:8080]: conn refused" = 0 := by
  refine ⟨?_, rfl, rfl, by decide⟩
  intro h
  have hnil : distributedOperation (sampleEnv []) duplicateLocations
      (fun i _ => if i = 0 then some "conn refused" else none) = none := rfl
  have := h.mp hnil 0 ⟨"10.0.0.2:8080", "b"⟩ rfl
  simp at this

/-! ## Replication failure -/

theorem stringsJoin_contains (lines : List String) (sep line : String) (h : line ∈ lines) :
    ∃ pre post, stringsJoin lines sep = pre ++ line ++ post := by
  induction lines with
  | nil => simp at h
  | cons a rest ih =>
    cases rest with
    | nil =>
      simp only [List.mem_singleton] at h
      subst h
      exact ⟨"", "", by simp [stringsJoin]⟩
    | cons b rest2 =>
      rcases List.mem_cons.mp h with h | h
      · subst h
        exact ⟨"", sep ++ stringsJoin (b :: rest2) sep, by
          simp [stringsJoin, String.append_assoc]⟩
      · obtain ⟨pre, post, hj⟩ := ih h
        exact ⟨a ++ sep ++ pre, post, by
          simp [stringsJoin, hj, String.append_assoc]⟩

theorem mem_failureLines (op : Nat → Location → GoError) (locations : List Location)
    (i : Nat) (location : Location) (msg : String)
    (hi : locations[i]? = some location) (hop : op i location = some msg) :
    errorLine location.Url msg ∈ failureLines op locations := by
  unfold failureLines errorLines
  rw [List.mem_filterMap]
  refine ⟨(location.Url, some msg), ?_, rfl⟩
  rw [List.mem_map]
  refine ⟨⟨location.Url, op i location⟩, ?_, by simp [hop]⟩
  exact (mem_launch op 0 locations _).mpr ⟨i, location, hi, by simp⟩

/-- When some peer fails, the combined error is non-nil and its text contains the line of every
failing peer. -/
theorem distributedOperation_failure (env : Env) (hfair : env.fair) (locations : List Location)
    (op : Nat → Location → GoError) (hdistinct : (locations.map Location.Url).Nodup)
    (hfail : ∃ i location, locations[i]? = some location ∧ (op i location).isSome) :
    ∃ text, distributedOperation env locations op = some text
      ∧ ∀ i location msg, locations[i]? = some location → op i location = some msg →
          ∃ pre post, text = pre ++ errorLine location.Url msg ++ post := by
  obtain ⟨lines, hperm, hrun⟩ := distributedOperation_eq env hfair locations op hdistinct
  have hmem : ∀ i location msg, locations[i]? = some location → op i location = some msg →
      errorLine location.Url msg ∈ lines := fun i location msg hi hop =>
    hperm.mem_iff.mpr (mem_failureLines op locations i location msg hi hop)
  obtain ⟨i, location, hi, hsome⟩ := hfail
  obtain ⟨msg, hmsg⟩ := Option.isSome_iff_exists.mp hsome
  have hl : lines ≠ [] := List.ne_nil_of_mem (hmem i location msg hi hmsg)
  refine ⟨stringsJoin lines "\n", by simp [hrun, hl], ?_⟩
  intro j loc m hj hop
  exact stringsJoin_contains lines "\n" _ (hmem j loc m hj hop)

/-- C4, as the code has it. Replication failure is surfaced, not rolled back: for every write or
delete whose local mutation succeeded and whose non-empty replica set has pairwise distinct
hosts and at least one peer whose operation fails, `ReplicatedWrite` / `ReplicatedDelete` return
size 0 and a non-nil error whose text contains, for each failing peer, the line
`[host]: message` with that peer's host and error message, while the only store mutation in the
trace is the one local commit / delete (no compensating call). -/
theorem replication_failure_surfaced (env : Env) (hfair : env.fair) (masterNode : String)
    (s : Store) (volumeId : VolumeId) (n : Needle) (r : Request) (remote : List Location)
    (hres : (resolve env s volumeId masterNode r).result = some (remote, none))
    (hne : remote ≠ [])
    (hdistinct : (remote.map Location.Url).Nodup) :
    (∀ size isUnchanged, s.WriteVolumeNeedle volumeId n = (size, isUnchanged, none) →
      (∃ i location, remote[i]? = some location
        ∧ (env.Upload i (replicateUpload r r.Jwt n location)).isSome) →
      ∃ text,
        (ReplicatedWrite env masterNode s volumeId n r).result
          = some (0, isUnchanged, some text)
        ∧ (∀ i location msg, remote[i]? = some location →
            env.Upload i (replicateUpload r r.Jwt n location) = some msg →
            ∃ pre post, text = pre ++ errorLine location.Url msg ++ post)
        ∧ (ReplicatedWrite env masterNode s volumeId n r).trace.filter Event.isStoreMutation
            = [.WriteVolumeNeedle volumeId n])
    ∧ (∀ size, s.DeleteVolumeNeedle volumeId n = (size, none) →
      (∃ i location, remote[i]? = some location
        ∧ (env.Delete i (replicateDeleteUrl r location) r.Jwt).isSome) →
      ∃ text,
        (ReplicatedDelete env masterNode s volumeId n r).result = some (0, some text)
        ∧ (∀ i location msg, remote[i]? = some location →
            env.Delete i (replicateDeleteUrl r location) r.Jwt = some msg →
            ∃ pre post, text = pre ++ errorLine location.Url msg ++ post)
        ∧ (ReplicatedDelete env masterNode s volumeId n r).trace.filter Event.isStoreMutation
            = [.DeleteVolumeNeedle volumeId n]) := by
  have hlen : remote.length > 0 := List.length_pos.mpr hne
  have hnostore := (resolve_trace_no_peer env s volumeId masterNode r).2
  constructor
  · intro size isUnchanged hw hfail
    obtain ⟨text, hrun, hlines⟩ := distributedOperation_failure env hfair remote
      (fun i location => env.Upload i (replicateUpload r r.Jwt n location)) hdistinct hfail
    refine ⟨"failed to write to replicas for volume " ++ toString volumeId ++ ": " ++ text,
      ?_, ?_, ?_⟩
    · simp [ReplicatedWrite, hres, hw, hlen, hrun]
    · intro i location msg hi hop
      obtain ⟨pre, post, hpp⟩ := hlines i location msg hi hop
      exact ⟨"failed to write to replicas for volume " ++ toString volumeId ++ ": " ++ pre,
        post, by rw [hpp]; simp [String.append_assoc]⟩
    · simp [ReplicatedWrite, hres, hw, hlen, hrun, List.filter_append, hnostore,
        Event.isStoreMutation, List.filter_eq_nil_iff, mem_dispatch]
  · intro size hd hfail
    obtain ⟨text, hrun, hlines⟩ := distributedOperation_failure env hfair remote
      (fun i location => env.Delete i (replicateDeleteUrl r location) r.Jwt) hdistinct hfail
    refine ⟨text, ?_, hlines, ?_⟩
    · simp [ReplicatedDelete, hres, hd, hlen, hrun]
    · simp [ReplicatedDelete, hres, hd, hlen, hrun, List.filter_append, hnostore,
        Event.isStoreMutation, List.filter_eq_nil_iff, mem_dispatch]

/-- Scenario C of the specification: copy count 3, two peers with distinct hosts, one of which
answers the delete with `conn refused`. -/
theorem replication_failure_surfaced_witness :
    ∃ text,
      (ReplicatedDelete (flakyEnv threeLocations) "master" (sampleStore 3) 7 sampleNeedle
          clientRequest).result = some (0, some text)
      ∧ (∀ i location msg,
          [(⟨"10.0.0.2:8080", "b"⟩ : Location), ⟨"10.0.0.3:8080", "c"⟩][i]? = some location →
          (flakyEnv threeLocations).Delete i (replicateDeleteUrl clientRequest location)
            clientRequest.Jwt = some msg →
          ∃ pre post, text = pre ++ errorLine location.Url msg ++ post)
      ∧ (ReplicatedDelete (flakyEnv threeLocations) "master" (sampleStore 3) 7 sampleNeedle
          clientRequest).trace.filter Event.isStoreMutation
          = [.DeleteVolumeNeedle 7 sampleNeedle] :=
  (replication_failure_surfaced (flakyEnv threeLocations) (flakyEnv_fair threeLocations)
    "master" (sampleStore 3) 7 sampleNeedle clientRequest
    [⟨"10.0.0.2:8080", "b"⟩, ⟨"10.0.0.3:8080", "c"⟩] rfl (by simp) (by decide)).2 128 rfl
    ⟨1, ⟨"10.0.0.3:8080", "c"⟩, rfl, rfl⟩

/-- C4 as stated fails when the directory lists a peer host twice: the first delete sent to
`10.0.0.2:8080` fails with `conn refused`, the second succeeds and arrives later, so the map
entry of that host ends as nil and `ReplicatedDelete` returns the local size 128 and a nil
error. -/
theorem replication_failure_lost_on_duplicate_host :
    (resolve duplicateEnv (sampleStore 3) 7 "master" clientRequest).result
        = some (duplicateLocations, none)
    ∧ (sampleStore 3).DeleteVolumeNeedle 7 sampleNeedle = (128, none)
    ∧ duplicateEnv.Delete 0 (replicateDeleteUrl clientRequest ⟨"10.0.0.2:8080", "b"⟩)
        clientRequest.Jwt = some "conn refused"
    ∧ ReplicatedDelete duplicateEnv "master" (sampleStore 3) 7 sampleNeedle clientRequest
        = ⟨[.Lookup "master" "7", .DeleteVolumeNeedle 7 sampleNeedle,
            .Delete "http://10.0.0.2:8080/7,0163?type=replicate" "token",
            .Delete "http://10.0.0.2:8080/7,0163?type=replicate" "token"],
          some (128, none)⟩
    ∧ ¬ ∃ text, (ReplicatedDelete duplicateEnv "master" (sampleStore 3) 7 sampleNeedle
          clientRequest).result = some (0, some text) := by
  refine ⟨rfl, rfl, rfl, rfl, ?_⟩
  rintro ⟨text, h⟩
  have h2 : (ReplicatedDelete duplicateEnv "master" (sampleStore 3) 7 sampleNeedle
      clientRequest).result = some (128, none) := rfl
  rw [h2] at h
  simp at h

/-! ## Outbound requests -/

theorem peer_not_mem_resolve (env : Env) (s : Store) (volumeId : VolumeId)
    (masterNode : String) (r : Request) (e : Event) (hpeer : e.isPeerCall = true) :
    e ∉ (resolve env s volumeId masterNode r).trace := by
  intro hmem
  rcases resolve_trace_lookup_only env s volumeId masterNode r with h | h
  · rw [h] at hmem
    simp at hmem
  · rw [h] at hmem
    simp only [List.mem_singleton] at hmem
    subst hmem
    simp [Event.isPeerCall] at hpeer

theorem replicateUpload_query (r : Request) (jwt : String) (n : Needle) (location : Location) :
    (replicateUpload r jwt n location).u.RawQuery.Get "type" = some "replicate"
    ∧ (replicateUpload r jwt n location).u.RawQuery.Get "ttl" = some n.Ttl
    ∧ (replicateUpload r jwt n location).u.RawQuery.Get "ts"
        = (if n.LastModified > 0 then some (toString n.LastModified) else none)
    ∧ (replicateUpload r jwt n location).u.RawQuery.Get "cm"
        = (if n.IsChunkedManifest then some "true" else none) := by
  by_cases hts : n.LastModified > 0 <;> by_cases hcm : n.IsChunkedManifest = true <;>
    simp [replicateUpload, hts, hcm, Values.Set, Values.Get]

theorem replicateUpload_eq (r : Request) (n : Needle) (location : Location) :
    replicateUpload r r.Jwt n location
      =
            { u :=
                { Scheme := "http", Host := location.Url, Path := r.Path,
                  RawQuery := [("type", "replicate"), ("ttl", n.Ttl)]
                    ++ (if n.LastModified > 0 then [("ts", toString n.LastModified)] else [])
                    ++ (if n.IsChunkedManifest then [("cm", "true")] else []) },
              filename := n.Name, data := n.Data, isGzipped := n.IsGzipped, mtype := n.Mime,
              pairMap :=
                if n.HasPairs then n.Pairs.map (fun kv => (PairNamePrefix ++ kv.1, kv.2))
                else [],
              jwt := r.Jwt } := by
  by_cases hts : n.LastModified > 0 <;> by_cases hcm : n.IsChunkedManifest = true <;>
    simp [replicateUpload, hts, hcm, Values.Set]

theorem peerCalls_dispatch (priority : Nat → Nat) (calls : List Event)
    (h : ∀ e ∈ calls, e.isPeerCall = true) :
    ((dispatch priority calls).filter Event.isPeerCall).Perm calls := by
  rw [List.filter_eq_self.mpr (fun e he => h e ((mem_dispatch priority calls e).mp he))]
  exact dispatch_perm priority calls

theorem upload_mem_ReplicatedWrite (env : Env) (masterNode : String) (s : Store)
    (volumeId : VolumeId) (n : Needle) (r : Request) (call : UploadCall)
    (hmem : Event.Upload call ∈ (ReplicatedWrite env masterNode s volumeId n r).trace) :
    ∃ remote location, (resolve env s volumeId masterNode r).result = some (remote, none)
      ∧ location ∈ remote ∧ call = replicateUpload r r.Jwt n location := by
  have hno := peer_not_mem_resolve env s volumeId masterNode r (.Upload call) rfl
  unfold ReplicatedWrite at hmem
  rcases hres : (resolve env s volumeId masterNode r).result with _ | ⟨remote, _ | err⟩
  · simp [hres] at hmem
    exact absurd hmem hno
  · rcases hw : s.WriteVolumeNeedle volumeId n with ⟨size, u, _ | e⟩
    · by_cases hlen : remote.length > 0
      · cases hd : distributedOperation env remote
            (fun i location => env.Upload i (replicateUpload r r.Jwt n location)) <;>
          simp [hres, hw, hlen, hd, mem_dispatch] at hmem <;>
          rcases hmem with hmem | ⟨location, hin, hloc⟩
        · exact absurd hmem hno
        · exact ⟨remote, location, rfl, hin, hloc.symm⟩
        · exact absurd hmem hno
        · exact ⟨remote, location, rfl, hin, hloc.symm⟩
      · simp [hres, hw, hlen] at hmem
        exact absurd hmem hno
    · simp [hres, hw] at hmem
      exact absurd hmem hno
  · simp [hres] at hmem
    exact absurd hmem hno

theorem delete_mem_ReplicatedDelete (env : Env) (masterNode : String) (s : Store)
    (volumeId : VolumeId) (n : Needle) (r : Request) (url jwt : String)
    (hmem : Event.Delete url jwt ∈ (ReplicatedDelete env masterNode s volumeId n r).trace) :
    ∃ remote location, (resolve env s volumeId masterNode r).result = some (remote, none)
      ∧ location ∈ remote
      ∧ url = "http://" ++ location.Url ++ r.Path ++ "?type=replicate" ∧ jwt = r.Jwt := by
  have hno := peer_not_mem_resolve env s volumeId masterNode r (.Delete url jwt) rfl
  unfold ReplicatedDelete at hmem
  rcases hres : (resolve env s volumeId masterNode r).result with _ | ⟨remote, _ | err⟩
  · simp [hres] at hmem
    exact absurd hmem hno
  · rcases hw : s.DeleteVolumeNeedle volumeId n with ⟨size, _ | e⟩
    · by_cases hlen : remote.length > 0
      · cases hd : distributedOperation env remote
            (fun i location => env.Delete i (replicateDeleteUrl r location) r.Jwt) <;>
          simp [hres, hw, hlen, hd, mem_dispatch] at hmem <;>
          rcases hmem with hmem | ⟨location, hin, hloc, hjwt⟩
        · exact absurd hmem hno
        · exact ⟨remote, location, rfl, hin, hloc.symm, hjwt.symm⟩
        · exact absurd hmem hno
        · exact ⟨remote, location, rfl, hin, hloc.symm, hjwt.symm⟩
      · simp [hres, hw, hlen] at hmem
        exact absurd hmem hno
    · simp [hres, hw] at hmem
      exact absurd hmem hno
  · simp [hres] at hmem
    exact absurd hmem hno

theorem OldReplicatedWrite_eq : OldReplicatedWrite = ReplicatedWrite := rfl

theorem OldReplicatedDelete_eq : OldReplicatedDelete = ReplicatedDelete := rfl

theorem peerCalls_ReplicatedWrite (env : Env) (masterNode : String) (s : Store)
    (volumeId : VolumeId) (n : Needle) (r : Request) (remote : List Location)
    (size : Nat) (isUnchanged : Bool)
    (hres : (resolve env s volumeId masterNode r).result = some (remote, none))
    (hw : s.WriteVolumeNeedle volumeId n = (size, isUnchanged, none)) :
    ((ReplicatedWrite env masterNode s volumeId n r).trace.filter Event.isPeerCall).Perm
      (remote.map (fun location => Event.Upload (replicateUpload r r.Jwt n location))) := by
  have hnopeer := (resolve_trace_no_peer env s volumeId masterNode r).1
  have hcalls := peerCalls_dispatch env.priority
    (remote.map (fun location => Event.Upload (replicateUpload r r.Jwt n location)))
    (by intro e he; obtain ⟨location, _, rfl⟩ := List.mem_map.mp he; rfl)
  by_cases hlen : remote.length > 0
  · cases hd : distributedOperation env remote
        (fun i location => env.Upload i (replicateUpload r r.Jwt n location)) <;>
      simpa [ReplicatedWrite, hres, hw, hlen, hd, List.filter_append, hnopeer,
        Event.isPeerCall] using hcalls
  · have hnil : remote = [] := by
      cases remote with
      | nil => rfl
      | cons a rest => simp at hlen
    subst hnil
    simp [ReplicatedWrite, hres, hw, List.filter_append, hnopeer, Event.isPeerCall]

theorem peerCalls_ReplicatedDelete (env : Env) (masterNode : String) (s : Store)
    (volumeId : VolumeId) (n : Needle) (r : Request) (remote : List Location) (size : Nat)
    (hres : (resolve env s volumeId masterNode r).result = some (remote, none))
    (hd : s.DeleteVolumeNeedle volumeId n = (size, none)) :
    ((ReplicatedDelete env masterNode s volumeId n r).trace.filter Event.isPeerCall).Perm
      (remote.map (fun location => Event.Delete (replicateDeleteUrl r location) r.Jwt)) := by
  have hnopeer := (resolve_trace_no_peer env s volumeId masterNode r).1
  have hcalls := peerCalls_dispatch env.priority
    (remote.map (fun location => Event.Delete (replicateDeleteUrl r location) r.Jwt))
    (by intro e he; obtain ⟨location, _, rfl⟩ := List.mem_map.mp he; rfl)
  by_cases hlen : remote.length > 0
  · cases hop : distributedOperation env remote
        (fun i location => env.Delete i (replicateDeleteUrl r location) r.Jwt) <;>
      simpa [ReplicatedDelete, hres, hd, hlen, hop, List.filter_append, hnopeer,
        Event.isPeerCall] using hcalls
  · have hnil : remote = [] := by
      cases remote with
      | nil => rfl
      | cons a rest => simp at hlen
    subst hnil
    simp [ReplicatedDelete, hres, hd, List.filter_append, hnopeer, Event.isPeerCall]

/-- C8, as the code has it. Outbound peer requests. Whenever the replica set is resolved and
the local commit succeeds, the peer calls of `ReplicatedWrite` / `OldReplicatedWrite` are, up to
the order in which the goroutines run, exactly one `operation.Upload` per peer of the replica
set, to host `location.Url` and the request path, whose query holds the forwarded-hop marker
`type=replicate`, `ttl` set to the needle's time-to-live, `ts` set to the needle's last-modified
timestamp exactly when that is positive and `cm=true` exactly when the needle is a chunk
manifest, and which carries the needle's name, data, gzip flag, mime, pairs and the caller's
token. Whenever the replica set is resolved and the local delete succeeds, the peer calls of
`ReplicatedDelete` / `OldReplicatedDelete` are exactly one `util.Delete` per peer of the replica
set, to `http://<location.Url><path>?type=replicate` with the caller's token: the marker only,
whatever the needle's time-to-live, timestamp and manifest flag. On every path, every upload
and every peer delete in the trace is such a request to a peer of the resolved replica set. -/
theorem outbound_requests (env : Env) (masterNode : String) (s : Store)
    (volumeId : VolumeId) (n : Needle) (r : Request) :
    (∀ remote, (resolve env s volumeId masterNode r).result = some (remote, none) →
      (∀ size isUnchanged, s.WriteVolumeNeedle volumeId n = (size, isUnchanged, none) →
        ((ReplicatedWrite env masterNode s volumeId n r).trace.filter Event.isPeerCall).Perm
          (remote.map (fun location => Event.Upload
            { u :=
                { Scheme := "http", Host := location.Url, Path := r.Path,
                  RawQuery := [("type", "replicate"), ("ttl", n.Ttl)]
                    ++ (if n.LastModified > 0 then [("ts", toString n.LastModified)] else [])
                    ++ (if n.IsChunkedManifest then [("cm", "true")] else []) },
              filename := n.Name, data := n.Data, isGzipped := n.IsGzipped, mtype := n.Mime,
              pairMap :=
                if n.HasPairs then n.Pairs.map (fun kv => (PairNamePrefix ++ kv.1, kv.2))
                else [],
              jwt := r.Jwt }))
        ∧ ((OldReplicatedWrite env masterNode s volumeId n r).trace.filter
            Event.isPeerCall).Perm
          (remote.map (fun location => Event.Upload
            { u :=
                { Scheme := "http", Host := location.Url, Path := r.Path,
                  RawQuery := [("type", "replicate"), ("ttl", n.Ttl)]
                    ++ (if n.LastModified > 0 then [("ts", toString n.LastModified)] else [])
                    ++ (if n.IsChunkedManifest then [("cm", "true")] else []) },
              filename := n.Name, data := n.Data, isGzipped := n.IsGzipped, mtype := n.Mime,
              pairMap :=
                if n.HasPairs then n.Pairs.map (fun kv => (PairNamePrefix ++ kv.1, kv.2))
                else [],
              jwt := r.Jwt })))
      ∧ (∀ size, s.DeleteVolumeNeedle volumeId n = (size, none) →
        ((ReplicatedDelete env masterNode s volumeId n r).trace.filter Event.isPeerCall).Perm
          (remote.map (fun location =>
            Event.Delete ("http://" ++ location.Url ++ r.Path ++ "?type=replicate") r.Jwt))
        ∧ ((OldReplicatedDelete env masterNode s volumeId n r).trace.filter
            Event.isPeerCall).Perm
          (remote.map (fun location =>
            Event.Delete ("http://" ++ location.Url ++ r.Path ++ "?type=replicate") r.Jwt))))
    ∧ (∀ call,
        (Event.Upload call ∈ (ReplicatedWrite env masterNode s volumeId n r).trace
          ∨ Event.Upload call ∈ (OldReplicatedWrite env masterNode s volumeId n r).trace) →
        ∃ remote location,
          (resolve env s volumeId masterNode r).result = some (remote, none)
          ∧ location ∈ remote
          ∧ call =
            { u :=
                { Scheme := "http", Host := location.Url, Path := r.Path,
                  RawQuery := [("type", "replicate"), ("ttl", n.Ttl)]
                    ++ (if n.LastModified > 0 then [("ts", toString n.LastModified)] else [])
                    ++ (if n.IsChunkedManifest then [("cm", "true")] else []) },
              filename := n.Name, data := n.Data, isGzipped := n.IsGzipped, mtype := n.Mime,
              pairMap :=
                if n.HasPairs then n.Pairs.map (fun kv => (PairNamePrefix ++ kv.1, kv.2))
                else [],
              jwt := r.Jwt })
    ∧ (∀ url jwt,
        (Event.Delete url jwt ∈ (ReplicatedDelete env masterNode s volumeId n r).trace
          ∨ Event.Delete url jwt ∈ (OldReplicatedDelete env masterNode s volumeId n r).trace) →
        ∃ remote location,
          (resolve env s volumeId masterNode r).result = some (remote, none)
          ∧ location ∈ remote
          ∧ url = "http://" ++ location.Url ++ r.Path ++ "?type=replicate" ∧ jwt = r.Jwt) := by
  have hup : (fun location => Event.Upload (replicateUpload r r.Jwt n location))
      = (fun location => Event.Upload
            { u :=
                { Scheme := "http", Host := location.Url, Path := r.Path,
                  RawQuery := [("type", "replicate"), ("ttl", n.Ttl)]
                    ++ (if n.LastModified > 0 then [("ts", toString n.LastModified)] else [])
                    ++ (if n.IsChunkedManifest then [("cm", "true")] else []) },
              filename := n.Name, data := n.Data, isGzipped := n.IsGzipped, mtype := n.Mime,
              pairMap :=
                if n.HasPairs then n.Pairs.map (fun kv => (PairNamePrefix ++ kv.1, kv.2))
                else [],
              jwt := r.Jwt }) := by
    funext location
    rw [replicateUpload_eq]
  refine ⟨?_, ?_, ?_⟩
  · intro remote hres
    constructor
    · intro size isUnchanged hw
      have h := peerCalls_ReplicatedWrite env masterNode s volumeId n r remote size isUnchanged
        hres hw
      rw [hup] at h
      exact ⟨h, by rw [OldReplicatedWrite_eq]; exact h⟩
    · intro size hd
      have h := peerCalls_ReplicatedDelete env masterNode s volumeId n r remote size hres hd
      exact ⟨h, by rw [OldReplicatedDelete_eq]; exact h⟩
  · intro call hmem
    rw [OldReplicatedWrite_eq, or_self] at hmem
    obtain ⟨remote, location, hres, hin, hcall⟩ :=
      upload_mem_ReplicatedWrite env masterNode s volumeId n r call hmem
    exact ⟨remote, location, hres, hin, by rw [hcall, replicateUpload_eq]⟩
  · intro url jwt hmem
    rw [OldReplicatedDelete_eq, or_self] at hmem
    exact delete_mem_ReplicatedDelete env masterNode s volumeId n r url jwt hmem

/-- A client write and a client delete of a chunk-manifest needle with time-to-live `3m` and
timestamp 1500000000 on a volume with three replicas, the peers run in reverse launch order:
one upload and one delete per peer. -/
theorem outbound_requests_witness :
    ((ReplicatedWrite (reversedEnv threeLocations) "master" (sampleStore 3) 7 sampleNeedle
        clientRequest).trace.filter Event.isPeerCall).Perm
      [.Upload
          { u := { Scheme := "http", Host := "10.0.0.2:8080", Path := "/7,0163",
                   RawQuery := [("type", "replicate"), ("ttl", "3m"), ("ts", "1500000000"),
                     ("cm", "true")] },
            filename := "a.txt", data := [1, 2, 3], isGzipped := false, mtype := "text/plain",
            pairMap := [], jwt := "token" },
        .Upload
          { u := { Scheme := "http", Host := "10.0.0.3:8080", Path := "/7,0163",
                   RawQuery := [("type", "replicate"), ("ttl", "3m"), ("ts", "1500000000"),
                     ("cm", "true")] },
            filename := "a.txt", data := [1, 2, 3], isGzipped := false, mtype := "text/plain",
            pairMap := [], jwt := "token" }]
    ∧ ((ReplicatedDelete (reversedEnv threeLocations) "master" (sampleStore 3) 7 sampleNeedle
        clientRequest).trace.filter Event.isPeerCall).Perm
      [.Delete "http://10.0.0.2:8080/7,0163?type=replicate" "token",
        .Delete "http://10.0.0.3:8080/7,0163?type=replicate" "token"] :=
  have h := (outbound_requests (reversedEnv threeLocations) "master" (sampleStore 3) 7
    sampleNeedle clientRequest).1 [⟨"10.0.0.2:8080", "b"⟩, ⟨"10.0.0.3:8080", "c"⟩] rfl
  ⟨(h.1 128 false rfl).1, (h.2 128 rfl).1⟩

/-- C8 as stated fails for deletes: for a chunk-manifest needle with time-to-live `3m` and
timestamp 1500000000 and for a needle with none of these, the outbound delete requests are the
same two requests (in whatever order the goroutines run), whose target URLs hold the marker
`type=replicate` and nothing of the needle's metadata. -/
theorem outbound_delete_without_metadata :
    sampleNeedle.Ttl = "3m" ∧ sampleNeedle.LastModified = 1500000000
    ∧ sampleNeedle.IsChunkedManifest = true
    ∧ plainNeedle.Ttl = "" ∧ plainNeedle.LastModified = 0
    ∧ plainNeedle.IsChunkedManifest = false
    ∧ ((ReplicatedDelete (sampleEnv threeLocations) "master" (sampleStore 3) 7 sampleNeedle
          clientRequest).trace.filter Event.isPeerCall).Perm
        [.Delete "http://10.0.0.2:8080/7,0163?type=replicate" "token",
         .Delete "http://10.0.0.3:8080/7,0163?type=replicate" "token"]
    ∧ ((ReplicatedDelete (sampleEnv threeLocations) "master" (sampleStore 3) 7 plainNeedle
          clientRequest).trace.filter Event.isPeerCall).Perm
        [.Delete "http://10.0.0.2:8080/7,0163?type=replicate" "token",
         .Delete "http://10.0.0.3:8080/7,0163?type=replicate" "token"]
    ∧ ((OldReplicatedDelete (sampleEnv threeLocations) "master" (sampleStore 3) 7 sampleNeedle
          clientRequest).trace.filter Event.isPeerCall).Perm
        [.Delete "http://10.0.0.2:8080/7,0163?type=replicate" "token",
         .Delete "http://10.0.0.3:8080/7,0163?type=replicate" "token"] :=
  ⟨rfl, rfl, rfl, rfl, rfl, rfl, List.Perm.refl _, List.Perm.refl _, List.Perm.refl _⟩

/-! ## The delete handler -/

theorem resolve_trace_all (env : Env) (s : Store) (volumeId : VolumeId)
    (masterNode : String) (r : Request) :
    (resolve env s volumeId masterNode r).trace.all Event.isCoordinatorCall = true := by
  rcases resolve_trace_lookup_only env s volumeId masterNode r with h | h <;>
    simp [h, Event.isCoordinatorCall, Event.isLookup]

theorem ReplicatedDelete_trace_all (env : Env) (masterNode : String) (s : Store)
    (volumeId : VolumeId) (n : Needle) (r : Request) :
    (ReplicatedDelete env masterNode s volumeId n r).trace.all Event.isCoordinatorCall
      = true := by
  have hr := resolve_trace_all env s volumeId masterNode r
  unfold ReplicatedDelete
  rcases hres : (resolve env s volumeId masterNode r).result with _ | ⟨remote, _ | err⟩
  · simpa [hres] using hr
  · rcases hw : s.DeleteVolumeNeedle volumeId n with ⟨size, _ | e⟩
    · by_cases hlen : remote.length > 0
      · cases hd : distributedOperation env remote
            (fun i location => env.Delete i (replicateDeleteUrl r location) r.Jwt) <;>
          simp only [hres, hw, hlen, hd, if_true, List.all_append, hr, Bool.true_and,
            Bool.and_eq_true] <;>
          simp [Event.isCoordinatorCall, Event.isStoreMutation, Event.isPeerCall,
            Event.isLookup, mem_dispatch]
      · simp only [hres, hw, hlen, if_false, List.all_append, hr, Bool.true_and]
        simp [Event.isCoordinatorCall, Event.isStoreMutation]
    · simp only [hres, hw, List.all_append, hr, Bool.true_and]
      simp [Event.isCoordinatorCall, Event.isStoreMutation]
  · simpa [hres] using hr

theorem mem_OldReplicatedDelete_trace (env : Env) (masterNode : String) (s : Store)
    (volumeId : VolumeId) (n : Needle) (r : Request) (e : Event)
    (hmem : e ∈ (OldReplicatedDelete env masterNode s volumeId n r).trace) :
    e.isCoordinatorCall = true := by
  rw [OldReplicatedDelete_eq] at hmem
  exact List.all_eq_true.mp (ReplicatedDelete_trace_all env masterNode s volumeId n r) e hmem

theorem deleteAndReply_trace (env : Env) (b : Boundary) (vs : VolumeServer) (r : Request)
    (volumeId : VolumeId) (n : Needle) (count : Int) (done : List Event) :
    (deleteAndReply env b vs r volumeId n count done).trace
      = done ++ [.OldReplicatedDelete volumeId { n with LastModified := deleteTimestamp b r }]
        ++ (OldReplicatedDelete env vs.GetMaster vs.store volumeId
              { n with LastModified := deleteTimestamp b r } r).trace := by
  unfold deleteAndReply
  simp only []
  split <;> rfl

/-- C9, as the code has it. Cookie check precedes delete: for every delete request on a non-EC
volume whose needle is found in the local store (the store read returns a nil error) with
stored cookie `X` while the cookie of the request is `Y ≠ X`: when the request passes the token
check, `OldDeleteHandler` reads the store, answers 400 with the error
`File Random Cookie does not match.`, which is not the 404 answer of a needle that is not found,
and makes no other call: no chunk deletion, no `OldReplicatedDelete`, no store mutation; when
the request fails the token check, the handler answers 401 `wrong jwt` before any call. -/
theorem cookie_check_precedes_delete (env : Env) (b : Boundary) (vs : VolumeServer)
    (r : Request) (stored : Needle)
    (hec : vs.store.FindEcVolume (b.NewVolumeId (b.parseURLPath r.Path).1) = none)
    (hfound : vs.store.ReadVolumeNeedle (b.NewVolumeId (b.parseURLPath r.Path).1)
        (b.ParsePath (b.parseURLPath r.Path).2 Needle.new) = (stored, none))
    (hcookie : stored.Cookie ≠ (b.ParsePath (b.parseURLPath r.Path).2 Needle.new).Cookie) :
    (vs.oldMaybeCheckJwtAuthorization r (b.parseURLPath r.Path).1 (b.parseURLPath r.Path).2
        = true →
      OldDeleteHandler env b vs r
          = ⟨[.ReadVolumeNeedle (b.NewVolumeId (b.parseURLPath r.Path).1) stored none],
              some ⟨StatusBadRequest, .error "File Random Cookie does not match."⟩⟩
      ∧ (OldDeleteHandler env b vs r).result ≠ some ⟨StatusNotFound, .size 0⟩)
    ∧ (vs.oldMaybeCheckJwtAuthorization r (b.parseURLPath r.Path).1 (b.parseURLPath r.Path).2
        = false →
      OldDeleteHandler env b vs r = ⟨[], some ⟨StatusUnauthorized, .error "wrong jwt"⟩⟩) := by
  constructor
  · intro hauth
    have hne : (stored.Cookie
        != (b.ParsePath (b.parseURLPath r.Path).2 Needle.new).Cookie) = true := by
      simpa using hcookie
    have key : OldDeleteHandler env b vs r
        = ⟨[.ReadVolumeNeedle (b.NewVolumeId (b.parseURLPath r.Path).1) stored none],
            some ⟨StatusBadRequest, .error "File Random Cookie does not match."⟩⟩ := by
      unfold OldDeleteHandler
      simp only [hauth, hec, hfound, hne, Bool.not_true, Bool.false_eq_true, if_false, if_true]
      rfl
    refine ⟨key, ?_⟩
    rw [key]
    simp [StatusBadRequest, StatusNotFound]
  · intro hauth
    unfold OldDeleteHandler
    simp only [hauth, Bool.not_false, if_true]
    rfl

/-- A delete request whose key carries cookie 99 while the stored needle has cookie 77, on a
server without token check. -/
theorem cookie_check_precedes_delete_witness :
    OldDeleteHandler (sampleEnv []) sampleBoundary (sampleServer sampleNeedle) clientRequest
        = ⟨[.ReadVolumeNeedle 7 sampleNeedle none],
            some ⟨StatusBadRequest, .error "File Random Cookie does not match."⟩⟩
    ∧ (OldDeleteHandler (sampleEnv []) sampleBoundary (sampleServer sampleNeedle)
        clientRequest).result ≠ some ⟨StatusNotFound, .size 0⟩ :=
  (cookie_check_precedes_delete (sampleEnv []) sampleBoundary (sampleServer sampleNeedle)
    clientRequest sampleNeedle rfl rfl (by decide)).1 rfl

/-- C9 as stated fails for a request that does not pass the token check: the volume is not
EC, the store holds the needle with cookie 77 and the request's cookie is 99, yet
`OldDeleteHandler` answers 401 `wrong jwt`, not 400, without reading the store. -/
theorem cookie_mismatch_unauthorized :
    (lockedServer sampleNeedle).store.FindEcVolume 7 = none
    ∧ (lockedServer sampleNeedle).store.ReadVolumeNeedle 7
        (sampleBoundary.ParsePath "0163" Needle.new) = (sampleNeedle, none)
    ∧ sampleNeedle.Cookie = 77
    ∧ (sampleBoundary.ParsePath "0163" Needle.new).Cookie = 99
    ∧ OldDeleteHandler (sampleEnv []) sampleBoundary (lockedServer sampleNeedle) clientRequest
        = ⟨[], some ⟨401, .error "wrong jwt"⟩⟩
    ∧ (OldDeleteHandler (sampleEnv []) sampleBoundary (lockedServer sampleNeedle)
        clientRequest).result
        ≠ some ⟨400, .error "File Random Cookie does not match."⟩ := by
  refine ⟨rfl, rfl, rfl, rfl, rfl, ?_⟩
  have h : (OldDeleteHandler (sampleEnv []) sampleBoundary (lockedServer sampleNeedle)
      clientRequest).result = some ⟨401, .error "wrong jwt"⟩ := rfl
  rw [h]
  decide

theorem unique_split {α : Type} (p : α → Bool) (a b c d : List α) (x y : α)
    (hy : p y = true) (ha : ∀ e ∈ a, p e = false) (hb : ∀ e ∈ b, p e = false)
    (h : a ++ x :: b = c ++ y :: d) : a = c ∧ x = y ∧ b = d := by
  induction a generalizing c with
  | nil =>
    cases c with
    | nil => simpa using h
    | cons c0 cs =>
      simp only [List.nil_append, List.cons_append, List.cons.injEq] at h
      have : y ∈ b := by rw [h.2]; simp
      have := hb y this
      simp [hy] at this
  | cons a0 as ih =>
    cases c with
    | nil =>
      simp only [List.nil_append, List.cons_append, List.cons.injEq] at h
      have := ha a0 (List.mem_cons_self _ _)
      rw [h.1, hy] at this
      simp at this
    | cons c0 cs =>
      simp only [List.cons_append, List.cons.injEq] at h
      obtain ⟨h1, h2, h3⟩ := ih cs (fun e he => ha e (List.mem_cons_of_mem _ he)) h.2
      exact ⟨by rw [h.1, h1], h2, h3⟩

/-- The shapes of a run of `OldDeleteHandler`: it stops before the manifest steps; or the
manifest fails to load; or chunk deletion fails; or it delegates to `OldReplicatedDelete` after
both manifest steps succeeded; or it delegates for a needle that is not a manifest. -/
theorem OldDeleteHandler_shape (env : Env) (b : Boundary) (vs : VolumeServer) (r : Request) :
    ((OldDeleteHandler env b vs r).trace.all
        (fun e => !e.isChunkStep && !e.isReplicatedDelete) = true)
    ∨ (∃ found e, OldDeleteHandler env b vs r
        = ⟨[.ReadVolumeNeedle (b.NewVolumeId (b.parseURLPath r.Path).1) found none,
            .LoadChunkManifest found.Data found.IsGzipped (some e)],
          some ⟨StatusInternalServerError, .error ("Load chunks manifest error: " ++ e)⟩⟩)
    ∨ (∃ found cm e, OldDeleteHandler env b vs r
        = ⟨[.ReadVolumeNeedle (b.NewVolumeId (b.parseURLPath r.Path).1) found none,
            .LoadChunkManifest found.Data found.IsGzipped none,
            .DeleteChunks cm (some e)],
          some ⟨StatusInternalServerError, .error ("Delete chunks error: " ++ e)⟩⟩)
    ∨ (∃ found cm, found.IsChunkedManifest = true
        ∧ b.LoadChunkManifest found.Data found.IsGzipped = (cm, none)
        ∧ b.DeleteChunks cm vs.GetMaster = none
        ∧ (OldDeleteHandler env b vs r).trace
          = [.ReadVolumeNeedle (b.NewVolumeId (b.parseURLPath r.Path).1) found none,
              .LoadChunkManifest found.Data found.IsGzipped none,
              .DeleteChunks cm none]
            ++ .OldReplicatedDelete (b.NewVolumeId (b.parseURLPath r.Path).1)
                { found with LastModified := deleteTimestamp b r }
            :: (OldReplicatedDelete env vs.GetMaster vs.store
                (b.NewVolumeId (b.parseURLPath r.Path).1)
                { found with LastModified := deleteTimestamp b r } r).trace)
    ∨ (∃ found, found.IsChunkedManifest = false
        ∧ (OldDeleteHandler env b vs r).trace
          = [.ReadVolumeNeedle (b.NewVolumeId (b.parseURLPath r.Path).1) found none]
            ++ .OldReplicatedDelete (b.NewVolumeId (b.parseURLPath r.Path).1)
                { found with LastModified := deleteTimestamp b r }
            :: (OldReplicatedDelete env vs.GetMaster vs.store
                (b.NewVolumeId (b.parseURLPath r.Path).1)
                { found with LastModified := deleteTimestamp b r } r).trace) := by
  unfold OldDeleteHandler
  by_cases hauth : vs.oldMaybeCheckJwtAuthorization r (b.parseURLPath r.Path).1
      (b.parseURLPath r.Path).2 = true
  · simp only [hauth, Bool.not_true, Bool.false_eq_true, if_false]
    rcases hecv : vs.store.FindEcVolume (b.NewVolumeId (b.parseURLPath r.Path).1) with _ | ec
    · simp only []
      rcases hread : vs.store.ReadVolumeNeedle (b.NewVolumeId (b.parseURLPath r.Path).1)
          (b.ParsePath (b.parseURLPath r.Path).2 Needle.new) with ⟨found, _ | e⟩
      · simp only []
        by_cases hck : (found.Cookie
            != (b.ParsePath (b.parseURLPath r.Path).2 Needle.new).Cookie) = true
        · left
          simp [hck, Event.isChunkStep, Event.isReplicatedDelete]
        · simp only [hck, Bool.false_eq_true, if_false]
          by_cases hcm : found.IsChunkedManifest = true
          · simp only [hcm, if_true]
            rcases hload : b.LoadChunkManifest found.Data found.IsGzipped with ⟨cm, _ | e⟩
            · simp only []
              rcases hdel : b.DeleteChunks cm vs.GetMaster with _ | e
              · right; right; right; left
                refine ⟨found, cm, hcm, hload, hdel, ?_⟩
                simp only [Bool.false_eq_true, if_false]
                rw [deleteAndReply_trace]
                simp
              · right; right; left
                exact ⟨found, cm, e, rfl⟩
            · right; left
              exact ⟨found, e, rfl⟩
          · simp only [hcm, Bool.false_eq_true, if_false]
            right; right; right; right
            have hcm2 : found.IsChunkedManifest = false := by simpa using hcm
            refine ⟨found, hcm2, ?_⟩
            rw [deleteAndReply_trace]
            simp
      · left
        simp [Event.isChunkStep, Event.isReplicatedDelete]
    · left
      simp [Event.isChunkStep, Event.isReplicatedDelete]
  · left
    simp [hauth]

theorem not_marker_of_coordinator (e : Event) (h : e.isCoordinatorCall = true) :
    e.isReplicatedDelete = false ∧ e.isChunkStep = false := by
  cases e <;> simp [Event.isCoordinatorCall, Event.isLookup, Event.isStoreMutation,
    Event.isPeerCall, Event.isReplicatedDelete, Event.isChunkStep] at h ⊢

/-- C10. Chunk-manifest ordering: in every run of `OldDeleteHandler`, an invocation of
`OldReplicatedDelete` on a needle that is a chunk manifest is immediately preceded by the
successful load of that needle's manifest and by a `DeleteChunks` on the loaded manifest that
returned nil; and in a run in which loading the manifest or deleting its chunks fails, the
handler answers with an internal-server-error (500) and the trace holds no invocation of
`OldReplicatedDelete` and no store mutation: the manifest needle is not deleted. -/
theorem chunk_manifest_ordering (env : Env) (b : Boundary) (vs : VolumeServer) (r : Request) :
    (∀ pre post vid n,
        (OldDeleteHandler env b vs r).trace = pre ++ .OldReplicatedDelete vid n :: post →
        n.IsChunkedManifest = true →
        ∃ before cm,
          pre = before ++ [.LoadChunkManifest n.Data n.IsGzipped none, .DeleteChunks cm none]
          ∧ b.LoadChunkManifest n.Data n.IsGzipped = (cm, none)
          ∧ b.DeleteChunks cm vs.GetMaster = none)
    ∧ (((∃ data gz e,
            Event.LoadChunkManifest data gz (some e) ∈ (OldDeleteHandler env b vs r).trace)
          ∨ (∃ cm e, Event.DeleteChunks cm (some e) ∈ (OldDeleteHandler env b vs r).trace)) →
        (∃ msg, (OldDeleteHandler env b vs r).result
            = some ⟨StatusInternalServerError, .error msg⟩)
        ∧ (OldDeleteHandler env b vs r).trace.all
            (fun e => !e.isReplicatedDelete && !e.isStoreMutation) = true) := by
  have hsub : ∀ n, ∀ e ∈ (OldReplicatedDelete env vs.GetMaster vs.store
      (b.NewVolumeId (b.parseURLPath r.Path).1) n r).trace,
      e.isReplicatedDelete = false ∧ e.isChunkStep = false := fun n e he =>
    not_marker_of_coordinator e (mem_OldReplicatedDelete_trace _ _ _ _ _ _ e he)
  constructor
  · intro pre post vid n htrace hmanifest
    rcases OldDeleteHandler_shape env b vs r with h | ⟨found, e, h⟩ | ⟨found, cm, e, h⟩
      | ⟨found, cm, hcm, hload, hdel, h⟩ | ⟨found, hcm, h⟩
    · exfalso
      have hmem : Event.OldReplicatedDelete vid n ∈ (OldDeleteHandler env b vs r).trace := by
        rw [htrace]; simp
      have := List.all_eq_true.mp h _ hmem
      simp [Event.isReplicatedDelete] at this
    · exfalso
      have hmem : Event.OldReplicatedDelete vid n ∈ (OldDeleteHandler env b vs r).trace := by
        rw [htrace]; simp
      rw [h] at hmem
      simp at hmem
    · exfalso
      have hmem : Event.OldReplicatedDelete vid n ∈ (OldDeleteHandler env b vs r).trace := by
        rw [htrace]; simp
      rw [h] at hmem
      simp at hmem
    · rw [h] at htrace
      obtain ⟨hpre, hn, _⟩ := unique_split Event.isReplicatedDelete _ _ pre post _
        (Event.OldReplicatedDelete vid n) rfl
        (by intro e he; simp at he; rcases he with rfl | rfl | rfl <;> rfl)
        (fun e he => (hsub _ e he).1) htrace
      simp only [Event.OldReplicatedDelete.injEq] at hn
      refine ⟨[.ReadVolumeNeedle (b.NewVolumeId (b.parseURLPath r.Path).1) found none], cm,
        ?_, ?_, hdel⟩
      · rw [← hpre, ← hn.2]
        rfl
      · rw [← hn.2]
        exact hload
    · exfalso
      rw [h] at htrace
      obtain ⟨_, hn, _⟩ := unique_split Event.isReplicatedDelete _ _ pre post _
        (Event.OldReplicatedDelete vid n) rfl
        (by intro e he; simp at he; rcases he with rfl; rfl)
        (fun e he => (hsub _ e he).1) htrace
      simp only [Event.OldReplicatedDelete.injEq] at hn
      rw [← hn.2] at hmanifest
      simp [hcm] at hmanifest
  · intro hfail
    have hchunk : ∃ ev ∈ (OldDeleteHandler env b vs r).trace,
        ev.isChunkStep = true ∧ ∀ data gz cm, ev ≠ .LoadChunkManifest data gz none
          ∧ ev ≠ .DeleteChunks cm none := by
      rcases hfail with ⟨data, gz, e, h⟩ | ⟨cm, e, h⟩
      · exact ⟨_, h, rfl, by intro _ _ _; simp⟩
      · exact ⟨_, h, rfl, by intro _ _ _; simp⟩
    obtain ⟨ev, hev, hstep, hnot⟩ := hchunk
    rcases OldDeleteHandler_shape env b vs r with h | ⟨found, e, h⟩ | ⟨found, cm, e, h⟩
      | ⟨found, cm, hcm, hload, hdel, h⟩ | ⟨found, hcm, h⟩
    · exfalso
      have := List.all_eq_true.mp h _ hev
      simp [hstep] at this
    · rw [h]
      exact ⟨⟨_, rfl⟩, by simp [Event.isReplicatedDelete, Event.isStoreMutation]⟩
    · rw [h]
      exact ⟨⟨_, rfl⟩, by simp [Event.isReplicatedDelete, Event.isStoreMutation]⟩
    · exfalso
      rw [h] at hev
      simp only [List.cons_append, List.nil_append, List.mem_cons] at hev
      rcases hev with rfl | rfl | rfl | rfl | hev
      · simp [Event.isChunkStep] at hstep
      · exact (hnot found.Data found.IsGzipped cm).1 rfl
      · exact (hnot found.Data found.IsGzipped cm).2 rfl
      · simp [Event.isChunkStep] at hstep
      · have := (hsub _ ev hev).2
        rw [hstep] at this
        simp at this
    · exfalso
      rw [h] at hev
      simp only [List.cons_append, List.nil_append, List.mem_cons] at hev
      rcases hev with rfl | rfl | hev
      · simp [Event.isChunkStep] at hstep
      · simp [Event.isChunkStep] at hstep
      · have := (hsub _ ev hev).2
        rw [hstep] at this
        simp at this

/-- A delete of a stored chunk manifest: with chunks deleted, the manifest steps come right
before the delegation; with a failing chunk deletion, the handler answers 500 and delegates
nothing. -/
theorem chunk_manifest_ordering_witness :
    (∃ before cm,
        [Event.ReadVolumeNeedle 7 manifestNeedle none,
          .LoadChunkManifest manifestNeedle.Data manifestNeedle.IsGzipped none,
          .DeleteChunks ⟨"big.bin", 4096⟩ none]
          = before ++ [.LoadChunkManifest
              ({ manifestNeedle with LastModified := 1600000000 } : Needle).Data
              ({ manifestNeedle with LastModified := 1600000000 } : Needle).IsGzipped none,
            .DeleteChunks cm none]
        ∧ sampleBoundary.LoadChunkManifest
            ({ manifestNeedle with LastModified := 1600000000 } : Needle).Data
            ({ manifestNeedle with LastModified := 1600000000 } : Needle).IsGzipped = (cm, none)
        ∧ sampleBoundary.DeleteChunks cm (sampleServer manifestNeedle).GetMaster = none)
    ∧ ((∃ msg, (OldDeleteHandler (sampleEnv []) failingChunksBoundary
            (sampleServer manifestNeedle) clientRequest).result
          = some ⟨StatusInternalServerError, .error msg⟩)
      ∧ (OldDeleteHandler (sampleEnv []) failingChunksBoundary (sampleServer manifestNeedle)
          clientRequest).trace.all
            (fun e => !e.isReplicatedDelete && !e.isStoreMutation) = true) :=
  ⟨(chunk_manifest_ordering (sampleEnv []) sampleBoundary (sampleServer manifestNeedle)
      clientRequest).1
      [.ReadVolumeNeedle 7 manifestNeedle none,
        .LoadChunkManifest manifestNeedle.Data manifestNeedle.IsGzipped none,
        .DeleteChunks ⟨"big.bin", 4096⟩ none]
      [.DeleteVolumeNeedle 7 { manifestNeedle with LastModified := 1600000000 }]
      7 { manifestNeedle with LastModified := 1600000000 } rfl rfl,
    (chunk_manifest_ordering (sampleEnv []) failingChunksBoundary (sampleServer manifestNeedle)
      clientRequest).2
      (Or.inr ⟨⟨"big.bin", 4096⟩, "chunk 3 unreachable", by decide⟩)⟩

end Seaweed
